import Mathlib

/-!
# Verification of the jsurl protocol engine

Shallow embedding of the jsurl repository's protocol core and proofs about
the claims of its specification.

Modelling conventions:

* Node `Buffer`s are modelled as `List Nat`, each element one byte
  (`< 256`); byte stores that truncate in JavaScript carry an explicit
  `% 256`.
* JavaScript strings are modelled as `List Char` (for the textual HTTP
  parsing functions) or as their UTF-8 byte lists `List Nat` (for the
  request builder, whose output is a `Buffer`).  `String` literals are
  converted with `strC` / `strB`.
* Randomness (masking keys, multipart boundaries) is externalized: the
  random value becomes an explicit parameter of the embedded function.
* The filesystem read of multipart file fields is externalized as a
  function parameter `readFile : List Nat → Option (List Nat)`.
* Mutation of a caller's buffer (`parseFrame` unmasks the payload in
  place) is modelled by explicit state passing: the embedded `parseFrame`
  returns the parsed result *and* the buffer as it stands after the call.
* Fallible code (`buildMultipartBody` throws on an unreadable file)
  returns `Except`.
-/

/-! ## Generic list utilities shared by the embeddings -/

/-- JavaScript `String.prototype.split` with a one-element separator. -/
def splitSep {α : Type} [DecidableEq α] (sep : α) : List α → List (List α)
  | [] => [[]]
  | c :: rest =>
    if c = sep then [] :: splitSep sep rest
    else
      match splitSep sep rest with
      | [] => [[c]]
      | h :: t => (c :: h) :: t

/-- JavaScript `String.prototype.split` with a two-element separator
(used for splitting on `"\r\n"`). -/
def splitSep2 {α : Type} [DecidableEq α] (a b : α) : List α → List (List α)
  | [] => [[]]
  | [x] => [[x]]
  | x :: y :: rest =>
    if x = a ∧ y = b then [] :: splitSep2 a b rest
    else
      match splitSep2 a b (y :: rest) with
      | [] => [[x]]
      | h :: t => (x :: h) :: t

/-- JavaScript `String.prototype.indexOf` for the four-element pattern
`"\r\n\r\n"`: index of the first occurrence, `none` when absent. -/
def findSeq4 {α : Type} [DecidableEq α] (a b c d : α) : List α → Option Nat
  | w :: x :: y :: z :: rest =>
    if w = a ∧ x = b ∧ y = c ∧ z = d then some 0
    else (findSeq4 a b c d (x :: y :: z :: rest)).map (· + 1)
  | _ => none

/-- JavaScript `String.prototype.includes`: whether `pat` occurs as a
contiguous run inside the list. -/
def hasSub {α : Type} [BEq α] (pat : List α) : List α → Bool
  | [] => pat.isEmpty
  | c :: rest => pat.isPrefixOf (c :: rest) || hasSub pat rest

/-! ## WebSocket frame codec (`src/lib/websocket/index.js`, frame part)

`createFrame(data, opcode, mask)` builds one RFC 6455 frame; the random
4-byte masking key is externalized as the parameter `maskingKey`.
`parseFrame(buffer)` decodes one frame from the front of the buffer; since
the JavaScript code unmasks the payload *in place* (the payload is a
`Buffer.slice` view of the input), the embedding returns a pair of the
parsed result and the post-call state of the caller's buffer. -/

/-- Big-endian 16-bit write (`Buffer.writeUInt16BE`). -/
def write16BE (n : Nat) : List Nat :=
  [n / 256 % 256, n % 256]

/-- Big-endian 64-bit write (`Buffer.writeBigUInt64BE`). -/
def write64BE (n : Nat) : List Nat :=
  [n / 72057594037927936 % 256, n / 281474976710656 % 256,
   n / 1099511627776 % 256, n / 4294967296 % 256,
   n / 16777216 % 256, n / 65536 % 256, n / 256 % 256, n % 256]

/-- The per-byte XOR loop `payload[i] ^= maskingKey[i % 4]`, starting at
loop index `i`; each store into a `Buffer` truncates to a byte. -/
def maskBytes (key : List Nat) : Nat → List Nat → List Nat
  | _, [] => []
  | i, b :: rest => (b ^^^ key.getD (i % 4) 0) % 256 :: maskBytes key (i + 1) rest

/-- `createFrame` from `src/lib/websocket/index.js`: FIN always set, the
minimal length tier chosen (inline ≤ 125, marker 126 with 16-bit length,
marker 127 with 64-bit length), masking key and XOR-masked payload
appended when `mask` is true. -/
def createFrame (payload : List Nat) (opcode : Nat) (mask : Bool)
    (maskingKey : List Nat) : List Nat :=
  let payloadLength := payload.length
  let extendedPayloadLength :=
    if payloadLength > 65535 then 127
    else if payloadLength > 125 then 126
    else payloadLength
  let byte1 := (128 ||| opcode) % 256
  let byte2 := ((if mask then 128 else 0) ||| extendedPayloadLength) % 256
  let ext :=
    if extendedPayloadLength = 126 then write16BE payloadLength
    else if extendedPayloadLength = 127 then write64BE payloadLength
    else []
  let keyPart := if mask then maskingKey else []
  let body := if mask then maskBytes maskingKey 0 payload else payload
  byte1 :: byte2 :: (ext ++ keyPart ++ body)

/-- The result record of `parseFrame`; an incomplete parse sets only
`complete` (the JavaScript code returns `{ complete: false }`). -/
structure ParsedFrame where
  complete : Bool
  fin : Bool := false
  opcode : Nat := 0
  payload : List Nat := []
  frameLength : Nat := 0
deriving DecidableEq, Repr

/-- The tail of `parseFrame` after the payload length and its starting
`offset` are known: masking-key extraction, completeness checks, payload
slicing and in-place unmasking.  The second component of the result is
the caller's buffer after the call (unchanged except for the in-place
unmasking of the payload region). -/
def parseFrameRest (buffer : List Nat) (fin : Bool) (opcode : Nat)
    (masked : Bool) (payloadLength offset : Nat) : ParsedFrame × List Nat :=
  if masked then
    if buffer.length < offset + 4 then ({ complete := false }, buffer)
    else
      let maskingKey := (buffer.drop offset).take 4
      if buffer.length < offset + 4 + payloadLength then ({ complete := false }, buffer)
      else
        let payload := maskBytes maskingKey 0 ((buffer.drop (offset + 4)).take payloadLength)
        ({ complete := true, fin := fin, opcode := opcode, payload := payload,
           frameLength := offset + 4 + payloadLength },
         buffer.take (offset + 4) ++ payload ++ buffer.drop (offset + 4 + payloadLength))
  else
    if buffer.length < offset + payloadLength then ({ complete := false }, buffer)
    else
      ({ complete := true, fin := fin, opcode := opcode,
         payload := (buffer.drop offset).take payloadLength,
         frameLength := offset + payloadLength }, buffer)

/-- `parseFrame` from `src/lib/websocket/index.js`: header decode, length
tier dispatch, then `parseFrameRest`.  The source's guards
`buffer.length < 2`, `< offset + 2` and `< offset + 8` followed by byte
reads at fixed offsets are rendered as pattern matches on the front of
the buffer (a list too short for the pattern is exactly a buffer that
fails the corresponding length guard). -/
def parseFrame (buffer : List Nat) : ParsedFrame × List Nat :=
  match buffer with
  | b1 :: b2 :: rest =>
    let fin := (b1 &&& 128) != 0
    let opcode := b1 &&& 15
    let masked := (b2 &&& 128) != 0
    let payloadLength := b2 &&& 127
    if payloadLength = 126 then
      match rest with
      | e0 :: e1 :: _ =>
        parseFrameRest (b1 :: b2 :: rest) fin opcode masked (e0 * 256 + e1) 4
      | _ => ({ complete := false }, buffer)
    else if payloadLength = 127 then
      match rest with
      | e0 :: e1 :: e2 :: e3 :: e4 :: e5 :: e6 :: e7 :: _ =>
        parseFrameRest (b1 :: b2 :: rest) fin opcode masked
          (e0 * 72057594037927936 + e1 * 281474976710656 + e2 * 1099511627776 +
           e3 * 4294967296 + e4 * 16777216 + e5 * 65536 + e6 * 256 + e7) 10
      | _ => ({ complete := false }, buffer)
    else parseFrameRest (b1 :: b2 :: rest) fin opcode masked payloadLength 2
  | _ => ({ complete := false }, buffer)

/-! ### Basic facts about the frame codec helpers -/

theorem maskBytes_length (key : List Nat) (i : Nat) (l : List Nat) :
    (maskBytes key i l).length = l.length := by
  induction l generalizing i with
  | nil => rfl
  | cons b rest ih => simp [maskBytes, ih]

theorem getD_lt_256 (key : List Nat) (hkb : ∀ b ∈ key, b < 256) (j : Nat) :
    key.getD j 0 < 256 := by
  by_cases h : j < key.length
  · rw [List.getD_eq_getElem key 0 h]
    exact hkb _ (List.getElem_mem h)
  · rw [List.getD_eq_default key 0 (Nat.le_of_not_lt h)]
    exact Nat.zero_lt_succ _

theorem maskBytes_maskBytes (key : List Nat) (hkb : ∀ b ∈ key, b < 256)
    (i : Nat) (l : List Nat) (hlb : ∀ b ∈ l, b < 256) :
    maskBytes key i (maskBytes key i l) = l := by
  induction l generalizing i with
  | nil => rfl
  | cons b rest ih =>
    have hb : b < 256 := hlb b (List.mem_cons_self b rest)
    have hk : key.getD (i % 4) 0 < 256 := getD_lt_256 key hkb (i % 4)
    have hx : b ^^^ key.getD (i % 4) 0 < 256 := Nat.xor_lt_two_pow (n := 8) hb hk
    simp only [maskBytes]
    rw [Nat.mod_eq_of_lt hx, Nat.xor_assoc, Nat.xor_self, Nat.xor_zero,
      Nat.mod_eq_of_lt hb,
      ih (i + 1) (fun b hb' => hlb b (List.mem_cons_of_mem _ hb'))]

/-! ### Recovery of the header bits written by `createFrame` -/

theorem byte1_facts (o : Nat) (h : o < 16) :
    (((128 ||| o) % 256 &&& 128 != 0) = true) ∧ (128 ||| o) % 256 &&& 15 = o := by
  interval_cases o <;> exact ⟨rfl, rfl⟩

theorem byte2_masked_small (pl : Nat) (h : pl ≤ 125) :
    (((128 ||| pl) % 256 &&& 128 != 0) = true) ∧ (128 ||| pl) % 256 &&& 127 = pl := by
  interval_cases pl <;> exact ⟨rfl, rfl⟩

theorem byte2_unmasked_small (pl : Nat) (h : pl ≤ 125) :
    (((0 ||| pl) % 256 &&& 128 != 0) = false) ∧ (0 ||| pl) % 256 &&& 127 = pl := by
  interval_cases pl <;> exact ⟨rfl, rfl⟩

/-! ### Dispatch lemmas for `parseFrame` on a structured buffer -/

theorem parseFrame_dispatch_small (b1 b2 : Nat) (rest : List Nat)
    (h126 : b2 &&& 127 ≠ 126) (h127 : b2 &&& 127 ≠ 127) :
    parseFrame (b1 :: b2 :: rest) =
      parseFrameRest (b1 :: b2 :: rest) ((b1 &&& 128) != 0) (b1 &&& 15)
        ((b2 &&& 128) != 0) (b2 &&& 127) 2 := by
  simp [parseFrame, h126, h127]

theorem parseFrame_dispatch_126 (b1 b2 e0 e1 : Nat) (rest : List Nat)
    (hb : b2 &&& 127 = 126) :
    parseFrame (b1 :: b2 :: e0 :: e1 :: rest) =
      parseFrameRest (b1 :: b2 :: e0 :: e1 :: rest) ((b1 &&& 128) != 0) (b1 &&& 15)
        ((b2 &&& 128) != 0) (e0 * 256 + e1) 4 := by
  simp [parseFrame, hb]

theorem parseFrame_dispatch_126_short (b1 b2 : Nat) (rest : List Nat)
    (hb : b2 &&& 127 = 126) (h : rest.length < 2) :
    parseFrame (b1 :: b2 :: rest) = ({ complete := false }, b1 :: b2 :: rest) := by
  rcases rest with _ | ⟨x, _ | ⟨y, t⟩⟩
  · simp [parseFrame, hb]
  · simp [parseFrame, hb]
  · simp at h
    omega

theorem parseFrame_dispatch_127 (b1 b2 e0 e1 e2 e3 e4 e5 e6 e7 : Nat) (rest : List Nat)
    (hb : b2 &&& 127 = 127) :
    parseFrame (b1 :: b2 :: e0 :: e1 :: e2 :: e3 :: e4 :: e5 :: e6 :: e7 :: rest) =
      parseFrameRest (b1 :: b2 :: e0 :: e1 :: e2 :: e3 :: e4 :: e5 :: e6 :: e7 :: rest)
        ((b1 &&& 128) != 0) (b1 &&& 15) ((b2 &&& 128) != 0)
        (e0 * 72057594037927936 + e1 * 281474976710656 + e2 * 1099511627776 +
         e3 * 4294967296 + e4 * 16777216 + e5 * 65536 + e6 * 256 + e7) 10 := by
  have h126 : b2 &&& 127 ≠ 126 := by omega
  simp [parseFrame, hb, h126]

theorem parseFrame_dispatch_127_short (b1 b2 : Nat) (rest : List Nat)
    (hb : b2 &&& 127 = 127) (h : rest.length < 8) :
    parseFrame (b1 :: b2 :: rest) = ({ complete := false }, b1 :: b2 :: rest) := by
  have h126 : b2 &&& 127 ≠ 126 := by omega
  rcases rest with _ | ⟨x0, _ | ⟨x1, _ | ⟨x2, _ | ⟨x3, _ | ⟨x4, _ | ⟨x5, _ | ⟨x6, _ | ⟨x7, t⟩⟩⟩⟩⟩⟩⟩⟩
  · simp [parseFrame, hb, h126]
  · simp [parseFrame, hb, h126]
  · simp [parseFrame, hb, h126]
  · simp [parseFrame, hb, h126]
  · simp [parseFrame, hb, h126]
  · simp [parseFrame, hb, h126]
  · simp [parseFrame, hb, h126]
  · simp [parseFrame, hb, h126]
  · simp at h
    omega

/-! ### Exact-frame behaviour of `parseFrameRest` -/

theorem parseFrameRest_exact_unmasked (pre body : List Nat) (f : Bool) (o : Nat) :
    parseFrameRest (pre ++ body) f o false body.length pre.length =
      ({ complete := true, fin := f, opcode := o, payload := body,
         frameLength := pre.length + body.length }, pre ++ body) := by
  unfold parseFrameRest
  rw [List.drop_left, List.take_length]
  simp

theorem parseFrameRest_exact_masked (pre key body : List Nat) (f : Bool) (o : Nat)
    (hk : key.length = 4) :
    parseFrameRest (pre ++ key ++ body) f o true body.length pre.length =
      ({ complete := true, fin := f, opcode := o, payload := maskBytes key 0 body,
         frameLength := pre.length + 4 + body.length },
       pre ++ key ++ maskBytes key 0 body) := by
  have hlen : (pre ++ key ++ body).length = pre.length + 4 + body.length := by
    simp [hk]
    omega
  have hpk : (pre ++ key).length = pre.length + 4 := by simp [hk]
  have hdrop : (pre ++ key ++ body).drop pre.length = key ++ body := by
    rw [List.append_assoc, List.drop_left]
  have hkey : ((pre ++ key ++ body).drop pre.length).take 4 = key := by
    rw [hdrop, ← hk, List.take_left]
  have hdrop2 : (pre ++ key ++ body).drop (pre.length + 4) = body := by
    rw [← hpk, List.drop_left]
  have htake2 : (pre ++ key ++ body).take (pre.length + 4) = pre ++ key := by
    rw [← hpk, List.take_left]
  have hdropAll : (pre ++ key ++ body).drop (pre.length + 4 + body.length) = [] := by
    rw [← hlen]
    exact List.drop_length _
  unfold parseFrameRest
  rw [if_pos rfl]
  rw [if_neg (by omega)]
  rw [hkey]
  rw [if_neg (by omega)]
  rw [hdrop2, List.take_length, htake2, hdropAll]
  simp

/-! ### Round trip: `parseFrame` decodes exactly what `createFrame` built -/

theorem parseFrame_createFrame (payload : List Nat) (opcode : Nat) (mask : Bool)
    (key : List Nat) (hop : opcode < 16) (hlen : payload.length < 2 ^ 53)
    (hpb : ∀ b ∈ payload, b < 256)
    (hk : mask = true → key.length = 4) (hkb : ∀ b ∈ key, b < 256) :
    (parseFrame (createFrame payload opcode mask key)).1 =
      { complete := true, fin := true, opcode := opcode, payload := payload,
        frameLength := (createFrame payload opcode mask key).length } := by
  obtain ⟨hf1, hf2⟩ := byte1_facts opcode hop
  by_cases h65 : payload.length > 65535
  · -- 64-bit length tier
    have hrec : payload.length / 72057594037927936 % 256 * 72057594037927936 +
        payload.length / 281474976710656 % 256 * 281474976710656 +
        payload.length / 1099511627776 % 256 * 1099511627776 +
        payload.length / 4294967296 % 256 * 4294967296 +
        payload.length / 16777216 % 256 * 16777216 +
        payload.length / 65536 % 256 * 65536 +
        payload.length / 256 % 256 * 256 + payload.length % 256 = payload.length := by
      omega
    cases mask with
    | false =>
      have hframe : createFrame payload opcode false key
          = (128 ||| opcode) % 256 :: (0 ||| 127) % 256
              :: (write64BE payload.length ++ payload) := by
        simp [createFrame, h65]
      rw [hframe]
      set c1 : Nat := (128 ||| opcode) % 256 with hc1
      have hm1 : (((0 ||| 127) % 256 &&& 128) != 0) = false := by decide
      have hm2 : (0 ||| 127) % 256 &&& 127 = 127 := by decide
      set c2 : Nat := (0 ||| 127) % 256 with hc2
      simp only [write64BE, List.cons_append, List.nil_append]
      rw [parseFrame_dispatch_127 c1 c2 _ _ _ _ _ _ _ _ _ hm2]
      rw [hf1, hf2, hm1, hrec]
      have hmain := parseFrameRest_exact_unmasked
        [c1, c2, payload.length / 72057594037927936 % 256,
         payload.length / 281474976710656 % 256, payload.length / 1099511627776 % 256,
         payload.length / 4294967296 % 256, payload.length / 16777216 % 256,
         payload.length / 65536 % 256, payload.length / 256 % 256,
         payload.length % 256] payload true opcode
      simp at hmain
      rw [hmain]
      simp
      try omega
    | true =>
      have hkey4 : key.length = 4 := hk rfl
      have hframe : createFrame payload opcode true key
          = (128 ||| opcode) % 256 :: (128 ||| 127) % 256
              :: (write64BE payload.length ++ key ++ maskBytes key 0 payload) := by
        simp [createFrame, h65]
      rw [hframe]
      set c1 : Nat := (128 ||| opcode) % 256 with hc1
      have hm1 : (((128 ||| 127) % 256 &&& 128) != 0) = true := by decide
      have hm2 : (128 ||| 127) % 256 &&& 127 = 127 := by decide
      set c2 : Nat := (128 ||| 127) % 256 with hc2
      simp only [write64BE, List.cons_append, List.nil_append, List.append_assoc]
      rw [parseFrame_dispatch_127 c1 c2 _ _ _ _ _ _ _ _ _ hm2]
      rw [hf1, hf2, hm1, hrec]
      have hmain := parseFrameRest_exact_masked
        [c1, c2, payload.length / 72057594037927936 % 256,
         payload.length / 281474976710656 % 256, payload.length / 1099511627776 % 256,
         payload.length / 4294967296 % 256, payload.length / 16777216 % 256,
         payload.length / 65536 % 256, payload.length / 256 % 256,
         payload.length % 256] key (maskBytes key 0 payload) true opcode hkey4
      simp [maskBytes_length, maskBytes_maskBytes key hkb 0 payload hpb] at hmain
      rw [hmain]
      simp [maskBytes_length, hkey4]
      try omega
  · by_cases h125 : payload.length > 125
    · -- 16-bit length tier
      have hrec : payload.length / 256 % 256 * 256 + payload.length % 256
          = payload.length := by omega
      cases mask with
      | false =>
        have hframe : createFrame payload opcode false key
            = (128 ||| opcode) % 256 :: (0 ||| 126) % 256
                :: (write16BE payload.length ++ payload) := by
          simp [createFrame, h65, h125]
        rw [hframe]
        set c1 : Nat := (128 ||| opcode) % 256 with hc1
        have hm1 : (((0 ||| 126) % 256 &&& 128) != 0) = false := by decide
        have hm2 : (0 ||| 126) % 256 &&& 127 = 126 := by decide
        set c2 : Nat := (0 ||| 126) % 256 with hc2
        simp only [write16BE, List.cons_append, List.nil_append]
        rw [parseFrame_dispatch_126 c1 c2 _ _ _ hm2]
        rw [hf1, hf2, hm1, hrec]
        have hmain := parseFrameRest_exact_unmasked
          [c1, c2, payload.length / 256 % 256, payload.length % 256] payload true opcode
        simp at hmain
        rw [hmain]
        simp
        try omega
      | true =>
        have hkey4 : key.length = 4 := hk rfl
        have hframe : createFrame payload opcode true key
            = (128 ||| opcode) % 256 :: (128 ||| 126) % 256
                :: (write16BE payload.length ++ key ++ maskBytes key 0 payload) := by
          simp [createFrame, h65, h125]
        rw [hframe]
        set c1 : Nat := (128 ||| opcode) % 256 with hc1
        have hm1 : (((128 ||| 126) % 256 &&& 128) != 0) = true := by decide
        have hm2 : (128 ||| 126) % 256 &&& 127 = 126 := by decide
        set c2 : Nat := (128 ||| 126) % 256 with hc2
        simp only [write16BE, List.cons_append, List.nil_append, List.append_assoc]
        rw [parseFrame_dispatch_126 c1 c2 _ _ _ hm2]
        rw [hf1, hf2, hm1, hrec]
        have hmain := parseFrameRest_exact_masked
          [c1, c2, payload.length / 256 % 256, payload.length % 256] key
          (maskBytes key 0 payload) true opcode hkey4
        simp [maskBytes_length, maskBytes_maskBytes key hkb 0 payload hpb] at hmain
        rw [hmain]
        simp [maskBytes_length, hkey4]
        try omega
    · -- inline length tier
      cases mask with
      | false =>
        obtain ⟨hm1, hm2⟩ := byte2_unmasked_small payload.length (by omega)
        have hframe : createFrame payload opcode false key
            = (128 ||| opcode) % 256 :: (0 ||| payload.length) % 256 :: payload := by
          simp [createFrame, h65, h125, show payload.length ≠ 126 by omega,
            show payload.length ≠ 127 by omega]
        rw [hframe]
        set c1 : Nat := (128 ||| opcode) % 256 with hc1
        set c2 : Nat := (0 ||| payload.length) % 256 with hc2
        rw [parseFrame_dispatch_small c1 c2 payload (by omega) (by omega)]
        rw [hf1, hf2, hm1, hm2]
        have hmain := parseFrameRest_exact_unmasked [c1, c2] payload true opcode
        simp at hmain
        rw [hmain]
        simp
        try omega
      | true =>
        have hkey4 : key.length = 4 := hk rfl
        obtain ⟨hm1, hm2⟩ := byte2_masked_small payload.length (by omega)
        have hframe : createFrame payload opcode true key
            = (128 ||| opcode) % 256 :: (128 ||| payload.length) % 256
                :: (key ++ maskBytes key 0 payload) := by
          simp [createFrame, h65, h125, show payload.length ≠ 126 by omega,
            show payload.length ≠ 127 by omega]
        rw [hframe]
        set c1 : Nat := (128 ||| opcode) % 256 with hc1
        set c2 : Nat := (128 ||| payload.length) % 256 with hc2
        rw [parseFrame_dispatch_small c1 c2 _ (by omega) (by omega)]
        rw [hf1, hf2, hm1, hm2]
        have hmain := parseFrameRest_exact_masked [c1, c2] key
          (maskBytes key 0 payload) true opcode hkey4
        simp [maskBytes_length, maskBytes_maskBytes key hkb 0 payload hpb] at hmain
        rw [hmain]
        simp [maskBytes_length, hkey4]
        try omega

/-- C1: for every payload whose byte length is one of 0, 1, 125, 126, 65535,
65536, 200000, every opcode among TEXT 0x1, BINARY 0x2, PING 0x9, PONG 0xA,
CLOSE 0x8, and both mask settings, `parseFrame` applied to the buffer built
by `createFrame` returns a complete result with `fin = true`, the same
opcode, a payload equal byte for byte to the original payload, and
`frameLength` equal to the total byte length of the created frame.  The
4-byte masking key is universally quantified in place of the source's
`crypto.randomBytes(4)`. -/
theorem claim_C1 (payload key : List Nat) (opcode : Nat) (mask : Bool)
    (hL : payload.length = 0 ∨ payload.length = 1 ∨ payload.length = 125 ∨
      payload.length = 126 ∨ payload.length = 65535 ∨ payload.length = 65536 ∨
      payload.length = 200000)
    (hop : opcode = 1 ∨ opcode = 2 ∨ opcode = 9 ∨ opcode = 10 ∨ opcode = 8)
    (hpb : ∀ b ∈ payload, b < 256) (hk : key.length = 4)
    (hkb : ∀ b ∈ key, b < 256) :
    (parseFrame (createFrame payload opcode mask key)).1 =
      { complete := true, fin := true, opcode := opcode, payload := payload,
        frameLength := (createFrame payload opcode mask key).length } :=
  parseFrame_createFrame payload opcode mask key (by omega) (by omega) hpb
    (fun _ => hk) hkb

/-- Witness for C1 at a concrete frame. -/
theorem claim_C1_witness :
    (parseFrame (createFrame [7] 1 true [1, 2, 3, 4])).1 =
      { complete := true, fin := true, opcode := 1, payload := [7],
        frameLength := (createFrame [7] 1 true [1, 2, 3, 4]).length } :=
  claim_C1 [7] [1, 2, 3, 4] 1 true (by decide) (by decide) (by decide)
    (by decide) (by decide)

/-! ### Strict prefixes of a frame always parse as incomplete -/

theorem parseFrame_short_complete (buf : List Nat) (h : buf.length < 2) :
    (parseFrame buf).1.complete = false := by
  rcases buf with _ | ⟨x, _ | ⟨y, t⟩⟩
  · rfl
  · rfl
  · simp at h
    omega

theorem parseFrame_126_short_complete (b1 b2 : Nat) (rest : List Nat)
    (hb : b2 &&& 127 = 126) (h : rest.length < 2) :
    (parseFrame (b1 :: b2 :: rest)).1.complete = false := by
  rw [parseFrame_dispatch_126_short b1 b2 rest hb h]

theorem parseFrame_127_short_complete (b1 b2 : Nat) (rest : List Nat)
    (hb : b2 &&& 127 = 127) (h : rest.length < 8) :
    (parseFrame (b1 :: b2 :: rest)).1.complete = false := by
  rw [parseFrame_dispatch_127_short b1 b2 rest hb h]

theorem parseFrameRest_incomplete (buf : List Nat) (f : Bool) (o : Nat) (m : Bool)
    (pl off : Nat) (h : buf.length < off + (if m then 4 else 0) + pl) :
    (parseFrameRest buf f o m pl off).1.complete = false := by
  cases m with
  | false =>
    have h' : buf.length < off + pl := by simpa using h
    simp [parseFrameRest, h']
  | true =>
    have h' : buf.length < off + 4 + pl := by
      have := h
      simp at this
      omega
    by_cases h1 : buf.length < off + 4
    · simp [parseFrameRest, h1]
    · simp [parseFrameRest, h1, h']

theorem parseFrame_take_incomplete (payload key : List Nat) (opcode : Nat)
    (mask : Bool) (n : Nat) (hlen : payload.length < 2 ^ 53)
    (hk : mask = true → key.length = 4)
    (hn : n < (createFrame payload opcode mask key).length) :
    (parseFrame ((createFrame payload opcode mask key).take n)).1.complete = false := by
  by_cases h65 : payload.length > 65535
  · have hrec : payload.length / 72057594037927936 % 256 * 72057594037927936 +
        payload.length / 281474976710656 % 256 * 281474976710656 +
        payload.length / 1099511627776 % 256 * 1099511627776 +
        payload.length / 4294967296 % 256 * 4294967296 +
        payload.length / 16777216 % 256 * 16777216 +
        payload.length / 65536 % 256 * 65536 +
        payload.length / 256 % 256 * 256 + payload.length % 256 = payload.length := by
      omega
    cases mask with
    | false =>
      have hframe : createFrame payload opcode false key
          = (128 ||| opcode) % 256 :: (0 ||| 127) % 256
              :: (write64BE payload.length ++ payload) := by
        simp [createFrame, h65]
      have hm1 : (((0 ||| 127) % 256 &&& 128) != 0) = false := by decide
      have hm2 : (0 ||| 127) % 256 &&& 127 = 127 := by decide
      rw [hframe] at hn ⊢
      set c1 : Nat := (128 ||| opcode) % 256 with hc1
      set c2 : Nat := (0 ||| 127) % 256 with hc2
      simp only [write64BE, List.cons_append, List.nil_append] at hn ⊢
      simp at hn
      by_cases hn2 : n < 2
      · exact parseFrame_short_complete _ (by simp; omega)
      · obtain ⟨m, rfl⟩ : ∃ m, n = m + 1 + 1 := ⟨n - 2, by omega⟩
        rw [List.take_succ_cons, List.take_succ_cons]
        by_cases hm8 : m < 8
        · exact parseFrame_127_short_complete _ _ _ hm2 (by simp; omega)
        · obtain ⟨j, rfl⟩ : ∃ j, m = j + 1 + 1 + 1 + 1 + 1 + 1 + 1 + 1 :=
            ⟨m - 8, by omega⟩
          rw [List.take_succ_cons, List.take_succ_cons, List.take_succ_cons,
            List.take_succ_cons, List.take_succ_cons, List.take_succ_cons,
            List.take_succ_cons, List.take_succ_cons]
          rw [parseFrame_dispatch_127 c1 c2 _ _ _ _ _ _ _ _ _ hm2]
          rw [hm1, hrec]
          apply parseFrameRest_incomplete
          simp
          omega
    | true =>
      have hkey4 : key.length = 4 := hk rfl
      have hframe : createFrame payload opcode true key
          = (128 ||| opcode) % 256 :: (128 ||| 127) % 256
              :: (write64BE payload.length ++ key ++ maskBytes key 0 payload) := by
        simp [createFrame, h65]
      have hm1 : (((128 ||| 127) % 256 &&& 128) != 0) = true := by decide
      have hm2 : (128 ||| 127) % 256 &&& 127 = 127 := by decide
      rw [hframe] at hn ⊢
      set c1 : Nat := (128 ||| opcode) % 256 with hc1
      set c2 : Nat := (128 ||| 127) % 256 with hc2
      simp only [write64BE, List.cons_append, List.nil_append,
        List.append_assoc] at hn ⊢
      simp [maskBytes_length, hkey4] at hn
      by_cases hn2 : n < 2
      · exact parseFrame_short_complete _ (by simp; omega)
      · obtain ⟨m, rfl⟩ : ∃ m, n = m + 1 + 1 := ⟨n - 2, by omega⟩
        rw [List.take_succ_cons, List.take_succ_cons]
        by_cases hm8 : m < 8
        · exact parseFrame_127_short_complete _ _ _ hm2 (by simp; omega)
        · obtain ⟨j, rfl⟩ : ∃ j, m = j + 1 + 1 + 1 + 1 + 1 + 1 + 1 + 1 :=
            ⟨m - 8, by omega⟩
          rw [List.take_succ_cons, List.take_succ_cons, List.take_succ_cons,
            List.take_succ_cons, List.take_succ_cons, List.take_succ_cons,
            List.take_succ_cons, List.take_succ_cons]
          rw [parseFrame_dispatch_127 c1 c2 _ _ _ _ _ _ _ _ _ hm2]
          rw [hm1, hrec]
          apply parseFrameRest_incomplete
          simp [maskBytes_length, hkey4]
          omega
  · by_cases h125 : payload.length > 125
    · have hrec : payload.length / 256 % 256 * 256 + payload.length % 256
          = payload.length := by omega
      cases mask with
      | false =>
        have hframe : createFrame payload opcode false key
            = (128 ||| opcode) % 256 :: (0 ||| 126) % 256
                :: (write16BE payload.length ++ payload) := by
          simp [createFrame, h65, h125]
        have hm1 : (((0 ||| 126) % 256 &&& 128) != 0) = false := by decide
        have hm2 : (0 ||| 126) % 256 &&& 127 = 126 := by decide
        rw [hframe] at hn ⊢
        set c1 : Nat := (128 ||| opcode) % 256 with hc1
        set c2 : Nat := (0 ||| 126) % 256 with hc2
        simp only [write16BE, List.cons_append, List.nil_append] at hn ⊢
        simp at hn
        by_cases hn2 : n < 2
        · exact parseFrame_short_complete _ (by simp; omega)
        · obtain ⟨m, rfl⟩ : ∃ m, n = m + 1 + 1 := ⟨n - 2, by omega⟩
          rw [List.take_succ_cons, List.take_succ_cons]
          by_cases hm2' : m < 2
          · exact parseFrame_126_short_complete _ _ _ hm2 (by simp; omega)
          · obtain ⟨j, rfl⟩ : ∃ j, m = j + 1 + 1 := ⟨m - 2, by omega⟩
            rw [List.take_succ_cons, List.take_succ_cons]
            rw [parseFrame_dispatch_126 c1 c2 _ _ _ hm2]
            rw [hm1, hrec]
            apply parseFrameRest_incomplete
            simp
            omega
      | true =>
        have hkey4 : key.length = 4 := hk rfl
        have hframe : createFrame payload opcode true key
            = (128 ||| opcode) % 256 :: (128 ||| 126) % 256
                :: (write16BE payload.length ++ key ++ maskBytes key 0 payload) := by
          simp [createFrame, h65, h125]
        have hm1 : (((128 ||| 126) % 256 &&& 128) != 0) = true := by decide
        have hm2 : (128 ||| 126) % 256 &&& 127 = 126 := by decide
        rw [hframe] at hn ⊢
        set c1 : Nat := (128 ||| opcode) % 256 with hc1
        set c2 : Nat := (128 ||| 126) % 256 with hc2
        simp only [write16BE, List.cons_append, List.nil_append,
          List.append_assoc] at hn ⊢
        simp [maskBytes_length, hkey4] at hn
        by_cases hn2 : n < 2
        · exact parseFrame_short_complete _ (by simp; omega)
        · obtain ⟨m, rfl⟩ : ∃ m, n = m + 1 + 1 := ⟨n - 2, by omega⟩
          rw [List.take_succ_cons, List.take_succ_cons]
          by_cases hm2' : m < 2
          · exact parseFrame_126_short_complete _ _ _ hm2 (by simp; omega)
          · obtain ⟨j, rfl⟩ : ∃ j, m = j + 1 + 1 := ⟨m - 2, by omega⟩
            rw [List.take_succ_cons, List.take_succ_cons]
            rw [parseFrame_dispatch_126 c1 c2 _ _ _ hm2]
            rw [hm1, hrec]
            apply parseFrameRest_incomplete
            simp [maskBytes_length, hkey4]
            omega
    · cases mask with
      | false =>
        obtain ⟨hm1, hm2⟩ := byte2_unmasked_small payload.length (by omega)
        have hframe : createFrame payload opcode false key
            = (128 ||| opcode) % 256 :: (0 ||| payload.length) % 256 :: payload := by
          simp [createFrame, h65, h125, show payload.length ≠ 126 by omega,
            show payload.length ≠ 127 by omega]
        rw [hframe] at hn ⊢
        set c1 : Nat := (128 ||| opcode) % 256 with hc1
        set c2 : Nat := (0 ||| payload.length) % 256 with hc2
        simp at hn
        by_cases hn2 : n < 2
        · exact parseFrame_short_complete _ (by simp; omega)
        · obtain ⟨m, rfl⟩ : ∃ m, n = m + 1 + 1 := ⟨n - 2, by omega⟩
          rw [List.take_succ_cons, List.take_succ_cons]
          rw [parseFrame_dispatch_small c1 c2 _ (by omega) (by omega)]
          rw [hm1, hm2]
          apply parseFrameRest_incomplete
          simp
          omega
      | true =>
        have hkey4 : key.length = 4 := hk rfl
        obtain ⟨hm1, hm2⟩ := byte2_masked_small payload.length (by omega)
        have hframe : createFrame payload opcode true key
            = (128 ||| opcode) % 256 :: (128 ||| payload.length) % 256
                :: (key ++ maskBytes key 0 payload) := by
          simp [createFrame, h65, h125, show payload.length ≠ 126 by omega,
            show payload.length ≠ 127 by omega]
        rw [hframe] at hn ⊢
        set c1 : Nat := (128 ||| opcode) % 256 with hc1
        set c2 : Nat := (128 ||| payload.length) % 256 with hc2
        simp [maskBytes_length, hkey4] at hn
        by_cases hn2 : n < 2
        · exact parseFrame_short_complete _ (by simp; omega)
        · obtain ⟨m, rfl⟩ : ∃ m, n = m + 1 + 1 := ⟨n - 2, by omega⟩
          rw [List.take_succ_cons, List.take_succ_cons]
          rw [parseFrame_dispatch_small c1 c2 _ (by omega) (by omega)]
          rw [hm1, hm2]
          apply parseFrameRest_incomplete
          simp [maskBytes_length, hkey4]
          omega

/-- C2: every strict prefix of a frame buffer built by `createFrame` parses
as an incomplete result (`complete = false`, never a successful decode), and
`parseFrame` on the reassembled buffer (the prefix followed by the remaining
bytes) decodes a frame identical to the one decoded from the whole buffer
fed at once. -/
theorem claim_C2 (payload key : List Nat) (opcode : Nat) (mask : Bool) (n : Nat)
    (hlen : payload.length < 2 ^ 53) (hk : mask = true → key.length = 4)
    (hn : n < (createFrame payload opcode mask key).length) :
    (parseFrame ((createFrame payload opcode mask key).take n)).1.complete = false
    ∧ parseFrame ((createFrame payload opcode mask key).take n
        ++ (createFrame payload opcode mask key).drop n)
      = parseFrame (createFrame payload opcode mask key) :=
  ⟨parseFrame_take_incomplete payload key opcode mask n hlen hk hn,
   congrArg parseFrame (List.take_append_drop n _)⟩

/-- Witness for C2 at a concrete frame and prefix length. -/
theorem claim_C2_witness :
    (parseFrame ((createFrame [1, 2] 1 true [1, 2, 3, 4]).take 3)).1.complete = false
    ∧ parseFrame ((createFrame [1, 2] 1 true [1, 2, 3, 4]).take 3
        ++ (createFrame [1, 2] 1 true [1, 2, 3, 4]).drop 3)
      = parseFrame (createFrame [1, 2] 1 true [1, 2, 3, 4]) :=
  claim_C2 [1, 2] [1, 2, 3, 4] 1 true 3 (by decide) (by decide) (by decide)

/-! ### Behaviour of `parseFrame` on its buffer: mutation and idempotence -/

theorem parseFrameRest_incomplete_buf (buf : List Nat) (f : Bool) (o : Nat)
    (m : Bool) (pl off : Nat) :
    (parseFrameRest buf f o m pl off).1.complete = false →
      (parseFrameRest buf f o m pl off).2 = buf := by
  simp only [parseFrameRest]
  split
  · split
    · intro _
      rfl
    · split
      · intro _
        rfl
      · intro h
        simp at h
  · split
    · intro _
      rfl
    · intro h
      simp at h

theorem parseFrameRest_unmasked_buf (buf : List Nat) (f : Bool) (o : Nat)
    (pl off : Nat) :
    (parseFrameRest buf f o false pl off).2 = buf := by
  simp only [parseFrameRest]
  split
  · rename_i h
    exact absurd h (by simp)
  · split
    · rfl
    · rfl

theorem parseFrameRest_length_le (buf : List Nat) (f : Bool) (o : Nat)
    (m : Bool) (pl off : Nat) :
    (parseFrameRest buf f o m pl off).1.complete = true →
      (parseFrameRest buf f o m pl off).1.frameLength ≤ buf.length := by
  simp only [parseFrameRest]
  split
  · split
    · intro h
      simp at h
    · split
      · intro h
        simp at h
      · intro _
        rename_i h1 h2
        simp at h2 ⊢
        omega
  · split
    · intro h
      simp at h
    · intro _
      rename_i h1
      simp at h1 ⊢
      omega

theorem parseFrame_incomplete_buf (buf : List Nat) :
    (parseFrame buf).1.complete = false → (parseFrame buf).2 = buf := by
  rcases buf with _ | ⟨b1, _ | ⟨b2, rest⟩⟩
  · intro _
    rfl
  · intro _
    rfl
  · simp only [parseFrame]
    split
    · split
      · exact parseFrameRest_incomplete_buf _ _ _ _ _ _
      · intro _
        rfl
    · split
      · split
        · exact parseFrameRest_incomplete_buf _ _ _ _ _ _
        · intro _
          rfl
      · exact parseFrameRest_incomplete_buf _ _ _ _ _ _

theorem parseFrame_unmasked_buf (buf : List Nat) (hm : buf.getD 1 0 &&& 128 = 0) :
    (parseFrame buf).2 = buf := by
  rcases buf with _ | ⟨b1, _ | ⟨b2, rest⟩⟩
  · rfl
  · rfl
  · have hb2 : b2 &&& 128 = 0 := hm
    have hmf : ((b2 &&& 128) != 0) = false := by simp [hb2]
    simp only [parseFrame, hmf]
    split
    · split
      · exact parseFrameRest_unmasked_buf _ _ _ _ _
      · rfl
    · split
      · split
        · exact parseFrameRest_unmasked_buf _ _ _ _ _
        · rfl
      · exact parseFrameRest_unmasked_buf _ _ _ _ _

theorem parseFrame_length_le (buf : List Nat) :
    (parseFrame buf).1.complete = true →
      (parseFrame buf).1.frameLength ≤ buf.length := by
  rcases buf with _ | ⟨b1, _ | ⟨b2, rest⟩⟩
  · intro h
    simp [parseFrame] at h
  · intro h
    simp [parseFrame] at h
  · simp only [parseFrame]
    split
    · split
      · exact parseFrameRest_length_le _ _ _ _ _ _
      · intro h
        simp at h
    · split
      · split
        · exact parseFrameRest_length_le _ _ _ _ _ _
        · intro h
          simp at h
      · exact parseFrameRest_length_le _ _ _ _ _ _

/-- C3 counterexample: the claim asserts that invoking `parseFrame` a second
time on the same buffer after a prior invocation returns the identical
parsed result.  For the masked frame `[129, 129, 1, 2, 3, 4, 64]`
(`createFrame [65] 1 true [1,2,3,4]`) the first call unmasks the payload in
place, so the second call on the mutated buffer re-applies the XOR and
returns payload `[64]` instead of `[65]`. -/
theorem claim_C3_counterexample :
    (parseFrame ((parseFrame [129, 129, 1, 2, 3, 4, 64]).2)).1
      ≠ (parseFrame [129, 129, 1, 2, 3, 4, 64]).1 := by decide

/-- C3 amended: `parseFrame` leaves the caller's buffer unchanged whenever
the parse is incomplete, and whenever the frame at the front is unmasked
(mask bit of the second byte clear) — in the unmasked case a second
invocation on the same buffer therefore returns the identical parsed
result.  For masked complete frames the in-place unmasking mutates the
buffer, so idempotence fails (see the counterexample).  Whenever the result
is complete, `frameLength` never exceeds the bytes available in the buffer
(it is exactly the size of the single frame at the front). -/
theorem claim_C3_amended (buf : List Nat) :
    ((parseFrame buf).1.complete = false → (parseFrame buf).2 = buf)
    ∧ (buf.getD 1 0 &&& 128 = 0 →
        (parseFrame buf).2 = buf
        ∧ parseFrame ((parseFrame buf).2) = parseFrame buf)
    ∧ ((parseFrame buf).1.complete = true →
        (parseFrame buf).1.frameLength ≤ buf.length) :=
  ⟨parseFrame_incomplete_buf buf,
   fun hm => ⟨parseFrame_unmasked_buf buf hm,
     by rw [parseFrame_unmasked_buf buf hm]⟩,
   parseFrame_length_le buf⟩

/-- Witness for the amended C3 at concrete buffers: an incomplete parse (a
single-byte buffer), an unmasked frame re-parsed identically, and a complete
frame whose `frameLength` is within the buffer. -/
theorem claim_C3_amended_witness :
    (parseFrame [129]).2 = [129]
    ∧ ((parseFrame [129, 1, 65]).2 = [129, 1, 65]
        ∧ parseFrame ((parseFrame [129, 1, 65]).2) = parseFrame [129, 1, 65])
    ∧ (parseFrame [129, 1, 65, 99]).1.frameLength ≤ [129, 1, 65, 99].length :=
  ⟨(claim_C3_amended [129]).1 (by decide),
   (claim_C3_amended [129, 1, 65]).2.1 (by decide),
   (claim_C3_amended [129, 1, 65, 99]).2.2 (by decide)⟩

theorem parseFrameRest_masked_spec (buf : List Nat) (f : Bool) (o : Nat)
    (pl off : Nat) :
    (parseFrameRest buf f o true pl off).1.complete = true →
      (parseFrameRest buf f o true pl off).2 =
          buf.take ((parseFrameRest buf f o true pl off).1.frameLength -
              (parseFrameRest buf f o true pl off).1.payload.length)
            ++ (parseFrameRest buf f o true pl off).1.payload
            ++ buf.drop (parseFrameRest buf f o true pl off).1.frameLength
      ∧ (parseFrameRest buf f o true pl off).1.payload =
          maskBytes ((buf.drop ((parseFrameRest buf f o true pl off).1.frameLength -
              (parseFrameRest buf f o true pl off).1.payload.length - 4)).take 4) 0
            ((buf.drop ((parseFrameRest buf f o true pl off).1.frameLength -
              (parseFrameRest buf f o true pl off).1.payload.length)).take
              ((parseFrameRest buf f o true pl off).1.payload.length)) := by
  simp only [parseFrameRest]
  split
  · split
    · intro h
      simp at h
    · split
      · intro h
        simp at h
      · intro _
        rename_i h1 h2
        simp at h1 h2
        have hplen : (maskBytes ((buf.drop off).take 4) 0
            ((buf.drop (off + 4)).take pl)).length = pl := by
          rw [maskBytes_length, List.length_take, List.length_drop]
          omega
        simp only [hplen]
        rw [show off + 4 + pl - pl = off + 4 from by omega]
        constructor
        · rfl
        · rw [show off + 4 - 4 = off from by omega]
  · rename_i h
    exact absurd trivial h

/-- C9: for every buffer whose front holds a complete masked frame,
`parseFrame` mutates the caller's buffer: after the call the buffer is the
untouched prefix up to the payload region (header, extended length, masking
key), then the unmasked payload bytes in place of the masked ones, then the
untouched suffix after the frame; the `payload` of the returned result is
exactly that in-place-unmasked region of the buffer (the JavaScript value
is a `Buffer.slice` view of it, not a copy), and it equals the XOR of the
original masked region with the masking key read from the buffer. -/
theorem claim_C9 (buf : List Nat)
    (hc : (parseFrame buf).1.complete = true)
    (hm : buf.getD 1 0 &&& 128 ≠ 0) :
    (parseFrame buf).2 =
        buf.take ((parseFrame buf).1.frameLength - (parseFrame buf).1.payload.length)
          ++ (parseFrame buf).1.payload ++ buf.drop (parseFrame buf).1.frameLength
    ∧ (parseFrame buf).1.payload =
        maskBytes ((buf.drop ((parseFrame buf).1.frameLength -
            (parseFrame buf).1.payload.length - 4)).take 4) 0
          ((buf.drop ((parseFrame buf).1.frameLength -
            (parseFrame buf).1.payload.length)).take
            ((parseFrame buf).1.payload.length)) := by
  rcases buf with _ | ⟨b1, _ | ⟨b2, rest⟩⟩
  · simp [parseFrame] at hc
  · simp [parseFrame] at hc
  · have hb2 : b2 &&& 128 ≠ 0 := hm
    have hmt : ((b2 &&& 128) != 0) = true := by simp [hb2]
    revert hc
    simp only [parseFrame, hmt]
    split
    · split
      · exact parseFrameRest_masked_spec _ _ _ _ _
      · intro h
        simp at h
    · split
      · split
        · exact parseFrameRest_masked_spec _ _ _ _ _
        · intro h
          simp at h
      · exact parseFrameRest_masked_spec _ _ _ _ _

/-- Witness for C9 at a concrete masked frame. -/
theorem claim_C9_witness :
    (parseFrame [129, 129, 1, 2, 3, 4, 64]).2 =
        [129, 129, 1, 2, 3, 4, 64].take
            ((parseFrame [129, 129, 1, 2, 3, 4, 64]).1.frameLength -
              (parseFrame [129, 129, 1, 2, 3, 4, 64]).1.payload.length)
          ++ (parseFrame [129, 129, 1, 2, 3, 4, 64]).1.payload
          ++ [129, 129, 1, 2, 3, 4, 64].drop
              (parseFrame [129, 129, 1, 2, 3, 4, 64]).1.frameLength
    ∧ (parseFrame [129, 129, 1, 2, 3, 4, 64]).1.payload =
        maskBytes (([129, 129, 1, 2, 3, 4, 64].drop
            ((parseFrame [129, 129, 1, 2, 3, 4, 64]).1.frameLength -
              (parseFrame [129, 129, 1, 2, 3, 4, 64]).1.payload.length - 4)).take 4) 0
          (([129, 129, 1, 2, 3, 4, 64].drop
            ((parseFrame [129, 129, 1, 2, 3, 4, 64]).1.frameLength -
              (parseFrame [129, 129, 1, 2, 3, 4, 64]).1.payload.length)).take
            ((parseFrame [129, 129, 1, 2, 3, 4, 64]).1.payload.length)) :=
  claim_C9 [129, 129, 1, 2, 3, 4, 64] (by decide) (by decide)

/-! ## HTTP response parser (`src/lib/http/response.js`) and handshake
validation (`src/lib/websocket/index.js`)

These functions operate on JavaScript strings, modelled as `List Char`.
`strC` converts a Lean string literal.  JavaScript's whitespace class
(`\s`, also used by `String.prototype.trim`) and its line terminators are
modelled by `isSpaceJS` / `isLineTermJS`; `toLowerCase` is modelled by
`Char.toLower` (ASCII case mapping, which agrees with JavaScript on the
ASCII header text these functions handle). -/

/-- The characters of a Lean string literal, as a JavaScript string value. -/
def strC (s : String) : List Char := s.data

/-- JavaScript whitespace (`\s` and the set trimmed by `trim`). -/
def isSpaceJS (c : Char) : Bool :=
  c == ' ' || c == '\t' || c == '\n' || c == '\r' ||
  c.toNat == 11 || c.toNat == 12 || c.toNat == 160 || c.toNat == 5760 ||
  (8192 ≤ c.toNat && c.toNat ≤ 8202) || c.toNat == 8232 || c.toNat == 8233 ||
  c.toNat == 8239 || c.toNat == 8287 || c.toNat == 12288 || c.toNat == 65279

/-- JavaScript line terminators (not matched by `.` in a regex). -/
def isLineTermJS (c : Char) : Bool :=
  c == '\n' || c == '\r' || c.toNat == 8232 || c.toNat == 8233

/-- The regex class `\d`. -/
def isDigitC (c : Char) : Bool := '0' ≤ c && c ≤ '9'

/-- The regex class `[\d.]`. -/
def isDigitDotC (c : Char) : Bool := isDigitC c || c == '.'

/-- JavaScript `String.prototype.trim`. -/
def jsTrim (l : List Char) : List Char :=
  ((l.dropWhile isSpaceJS).reverse.dropWhile isSpaceJS).reverse

/-- JavaScript `String.prototype.toLowerCase` on ASCII text. -/
def toLowerC (l : List Char) : List Char := l.map Char.toLower

/-- Value of a decimal digit string (`parseInt` on the digits captured by
`(\d+)`). -/
def digitsToNat (l : List Char) : Nat :=
  l.foldl (fun acc c => acc * 10 + (c.toNat - 48)) 0

/-- The status-line regex `/^HTTP\/[\d.]+\s+(\d+)\s*(.*)$/` of
`parseResponse`, as a deterministic matcher: the character classes
`[\d.]`, `\s` and `\d` are pairwise arranged so that a backtracking match
exists exactly when the maximal-run match succeeds, and `(.*)$` (with `.`
not matching line terminators) succeeds exactly when no line terminator
remains after the whitespace following the status code.  Returns the
captured status code and status text. -/
def matchStatusLine (line : List Char) : Option (Nat × List Char) :=
  if (strC "HTTP/").isPrefixOf line then
    let r1 := line.drop 5
    if (r1.takeWhile isDigitDotC).isEmpty then none
    else
      let r2 := r1.dropWhile isDigitDotC
      if (r2.takeWhile isSpaceJS).isEmpty then none
      else
        let r3 := r2.dropWhile isSpaceJS
        let d := r3.takeWhile isDigitC
        if d.isEmpty then none
        else
          let r4 := (r3.dropWhile isDigitC).dropWhile isSpaceJS
          if r4.any isLineTermJS then none
          else some (digitsToNat d, r4)
  else none

/-- A header value in the parsed-response map: a repeated header name turns
the single value into an ordered list of values. -/
inductive HeaderVal where
  | one (v : List Char)
  | many (vs : List (List Char))
deriving DecidableEq, Repr

/-- `headers[key] = value` insertion of `parseResponse`: a fresh key is
appended (JavaScript object insertion order), a repeated key accumulates
into a list. -/
def insertHeader (hs : List (List Char × HeaderVal)) (k v : List Char) :
    List (List Char × HeaderVal) :=
  match hs with
  | [] => [(k, .one v)]
  | (k', hv) :: rest =>
    if k' = k then
      (k', match hv with
           | .one x => .many [x, v]
           | .many xs => .many (xs ++ [v])) :: rest
    else (k', hv) :: insertHeader rest k v

/-- The header-line loop of `parseResponse`: split each line at its first
colon; a line whose colon index is not strictly positive is skipped; key is
trimmed and lower-cased, value trimmed. -/
def parseHeaderLines (lines : List (List Char)) : List (List Char × HeaderVal) :=
  lines.foldl (fun hs line =>
    match line.findIdx? (· == ':') with
    | some i =>
      if 0 < i then
        insertHeader hs (toLowerC (jsTrim (line.take i))) (jsTrim (line.drop (i + 1)))
      else hs
    | none => hs) []

/-- The result record of `parseResponse`.  An invalid parse sets `valid`,
`error` and `raw`; the status-class helper closures of the source are pure
functions of `statusCode` and are omitted.  The embedding is total: the
source never throws on malformed input, it returns the invalid marker. -/
structure HttpResponse where
  valid : Bool
  statusCode : Nat := 0
  statusText : List Char := []
  headers : List (List Char × HeaderVal) := []
  body : List Char := []
  error : List Char := []
  raw : List Char := []
deriving DecidableEq, Repr

/-- `parseResponse` from `src/lib/http/response.js`.  `headerEndIndex` is
`indexOf("\r\n\r\n")`; when it is `-1` the source's `substring(0, -1)`
clamps to the empty string (empty header map) and the body guard
`headerEndIndex > 0` yields an empty body. -/
def parseResponse (response : List Char) : HttpResponse :=
  if response = [] ∨ jsTrim response = [] then
    { valid := false, error := strC "Empty response", raw := response }
  else
    match matchStatusLine ((splitSep2 '\r' '\n' response).headD []) with
    | none =>
      { valid := false, error := strC "Invalid HTTP response format", raw := response }
    | some (statusCode, statusText) =>
      let headerEnd := findSeq4 '\r' '\n' '\r' '\n' response
      let headPart := match headerEnd with
        | some i => response.take i
        | none => []
      let headers := parseHeaderLines ((splitSep2 '\r' '\n' headPart).drop 1)
      let body := match headerEnd with
        | some i => if 0 < i then response.drop (i + 4) else []
        | none => []
      { valid := true, statusCode := statusCode, statusText := statusText,
        headers := headers, body := body, raw := response }

/-- The result record of `validateHandshakeResponse`. -/
structure HandshakeResult where
  valid : Bool
  error : List Char := []
deriving DecidableEq, Repr

/-- The accept-key extraction loop of `validateHandshakeResponse`: the
first line whose lower-cased form starts with `sec-websocket-accept:`
contributes `line.split(":")[1].trim()`; with no such line the accept key
stays the empty string. -/
def findAcceptKeyLoop : List (List Char) → List Char
  | [] => []
  | line :: rest =>
    if (strC "sec-websocket-accept:").isPrefixOf (toLowerC line) then
      jsTrim ((splitSep ':' line).getD 1 [])
    else findAcceptKeyLoop rest

/-- `validateHandshakeResponse` from `src/lib/websocket/index.js`: the
status line (first CRLF-separated line) must contain `"101"`, and the
extracted `Sec-WebSocket-Accept` value must equal the expected accept key
exactly (case-sensitive string comparison); otherwise an invalid result
carrying an error message is returned. -/
def validateHandshakeResponse (response expectedAcceptKey : List Char) :
    HandshakeResult :=
  let lines := splitSep2 '\r' '\n' response
  let statusLine := lines.headD []
  if !(hasSub (strC "101") statusLine) then
    { valid := false, error := strC "Invalid status: " ++ statusLine }
  else
    let acceptKey := findAcceptKeyLoop lines
    if acceptKey ≠ expectedAcceptKey then
      { valid := false, error := strC "Invalid accept key" }
    else { valid := true }

/-! ### Facts about `jsTrim`, `splitSep2` and the status line -/

theorem mem_dropWhile_of_neg {α : Type} (p : α → Bool) (l : List α) (c : α)
    (hc : c ∈ l) (hcp : p c = false) : c ∈ l.dropWhile p := by
  induction l with
  | nil => cases hc
  | cons a t ih =>
    rw [List.dropWhile_cons]
    by_cases hpa : p a = true
    · rw [if_pos hpa]
      rcases List.mem_cons.mp hc with rfl | hct
      · rw [hcp] at hpa
        cases hpa
      · exact ih hct
    · rw [if_neg hpa]
      exact hc

theorem jsTrim_all_space (l : List Char) (h : jsTrim l = []) :
    ∀ c ∈ l, isSpaceJS c = true := by
  unfold jsTrim at h
  rw [List.reverse_eq_nil_iff, List.dropWhile_eq_nil_iff] at h
  intro c hc
  by_cases hcs : isSpaceJS c = true
  · exact hcs
  · have h1 : c ∈ l.dropWhile isSpaceJS :=
      mem_dropWhile_of_neg _ _ _ hc (by simpa using hcs)
    exact h c (List.mem_reverse.mpr h1)

theorem splitSep2_ne_nil {α : Type} [DecidableEq α] (a b : α) (l : List α) :
    splitSep2 a b l ≠ [] := by
  cases l with
  | nil => simp [splitSep2]
  | cons x t =>
    cases t with
    | nil => simp [splitSep2]
    | cons y t2 =>
      simp only [splitSep2]
      split
      · simp
      · split
        · simp
        · simp

theorem splitSep2_head_prefix {α : Type} [DecidableEq α] (a b : α) (l : List α) :
    ∃ t, l = ((splitSep2 a b l).headD []) ++ t := by
  induction l with
  | nil => exact ⟨[], rfl⟩
  | cons x t ih =>
    cases t with
    | nil => exact ⟨[], rfl⟩
    | cons y t2 =>
      by_cases hab : x = a ∧ y = b
      · refine ⟨x :: y :: t2, ?_⟩
        simp [splitSep2, hab]
      · simp only [splitSep2, if_neg hab]
        obtain ⟨h0, tl, hsplit⟩ : ∃ h0 tl, splitSep2 a b (y :: t2) = h0 :: tl := by
          cases hsp : splitSep2 a b (y :: t2) with
          | nil => exact absurd hsp (splitSep2_ne_nil a b _)
          | cons h0 tl => exact ⟨h0, tl, rfl⟩
        rw [hsplit] at ih ⊢
        obtain ⟨t', ht'⟩ := ih
        simp only [List.headD_cons] at ht' ⊢
        exact ⟨t', by rw [List.cons_append, ← ht']⟩

theorem matchStatusLine_starts (line : List Char) (p : Nat × List Char)
    (hm : matchStatusLine line = some p) : ∃ u, line = 'H' :: u := by
  unfold matchStatusLine at hm
  by_cases hpre : (strC "HTTP/").isPrefixOf line = true
  · obtain ⟨t, ht⟩ := (List.isPrefixOf_iff_prefix.mp hpre)
    exact ⟨strC "TTP/" ++ t, by rw [← ht]; rfl⟩
  · rw [if_neg hpre] at hm
    cases hm

/-- C7: `parseResponse` on
`"HTTP/1.1 200 OK\r\nContent-Type: text/plain\r\n\r\nhello"` yields a valid
result with status code 200, status text `"OK"`, the header map
`content-type ↦ "text/plain"` and body `"hello"`; and every input that is
empty or whose first CRLF-separated line does not match the status-line
regex yields the explicit invalid-response marker (`valid = false` with an
error message) — the embedding is a total function, mirroring that the
source returns this marker instead of throwing. -/
theorem claim_C7 :
    parseResponse (strC "HTTP/1.1 200 OK\r\nContent-Type: text/plain\r\n\r\nhello") =
      { valid := true, statusCode := 200, statusText := strC "OK",
        headers := [(strC "content-type", .one (strC "text/plain"))],
        body := strC "hello",
        raw := strC "HTTP/1.1 200 OK\r\nContent-Type: text/plain\r\n\r\nhello" }
    ∧ ∀ s : List Char,
        (s = [] ∨ matchStatusLine ((splitSep2 '\r' '\n' s).headD []) = none) →
        (parseResponse s).valid = false ∧ (parseResponse s).error ≠ [] := by
  constructor
  · decide
  · intro s hs
    unfold parseResponse
    rcases hs with rfl | hm
    · simp [strC]
    · by_cases he : s = [] ∨ jsTrim s = []
      · rw [if_pos he]
        simp [strC]
      · rw [if_neg he, hm]
        simp [strC]

/-- Witness for the universally quantified part of C7. -/
theorem claim_C7_witness :
    (parseResponse (strC "garbage")).valid = false
    ∧ (parseResponse (strC "garbage")).error ≠ [] :=
  claim_C7.2 (strC "garbage") (Or.inr (by decide))

/-- C10: a non-empty input whose first CRLF-separated line matches the
status-line regex but which contains no `"\r\n\r\n"` header terminator
anywhere still parses as valid, with the captured status code and text, an
empty header map and an empty body (the source's `substring(0, -1)` clamps
to the empty header block and the `headerEndIndex > 0` guard empties the
body). -/
theorem claim_C10 (s : List Char) (code : Nat) (text : List Char)
    (hne : s ≠ [])
    (hm : matchStatusLine ((splitSep2 '\r' '\n' s).headD []) = some (code, text))
    (hnt : findSeq4 '\r' '\n' '\r' '\n' s = none) :
    parseResponse s =
      { valid := true, statusCode := code, statusText := text,
        headers := [], body := [], raw := s } := by
  have htrim : jsTrim s ≠ [] := by
    intro h
    obtain ⟨u, hu⟩ := matchStatusLine_starts _ _ hm
    obtain ⟨t, ht⟩ := splitSep2_head_prefix '\r' '\n' s
    rw [hu] at ht
    have : isSpaceJS 'H' = true :=
      jsTrim_all_space s h 'H' (by rw [ht]; exact List.mem_append_left _ (List.mem_cons_self _ _))
    cases this
  unfold parseResponse
  rw [if_neg (by tauto), hm, hnt]
  simp [parseHeaderLines, splitSep2]

/-- Witness for C10 at a concrete terminator-less response. -/
theorem claim_C10_witness :
    parseResponse (strC "HTTP/1.1 204 No Content") =
      { valid := true, statusCode := 204, statusText := strC "No Content",
        headers := [], body := [], raw := strC "HTTP/1.1 204 No Content" } :=
  claim_C10 (strC "HTTP/1.1 204 No Content") 204 (strC "No Content")
    (by decide) (by decide) (by decide)

/-- C5: `validateHandshakeResponse response expectedAccept` returns a valid
result exactly when the first CRLF-separated line of the response contains
the substring `"101"` and the accept value extracted from the
`Sec-WebSocket-Accept` header line (header name matched case-insensitively,
value taken after the first colon and trimmed) is equal, byte for byte and
case-sensitively, to the expected accept key; every invalid outcome carries
a non-empty error message — the embedding is a total function, mirroring
that the source never throws. -/
theorem claim_C5 (response expected : List Char) :
    ((validateHandshakeResponse response expected).valid = true ↔
      (hasSub (strC "101") ((splitSep2 '\r' '\n' response).headD []) = true
        ∧ findAcceptKeyLoop (splitSep2 '\r' '\n' response) = expected))
    ∧ ((validateHandshakeResponse response expected).valid = false →
        (validateHandshakeResponse response expected).error ≠ []) := by
  simp only [validateHandshakeResponse]
  set L := (splitSep2 '\r' '\n' response).headD [] with hL
  set K := findAcceptKeyLoop (splitSep2 '\r' '\n' response) with hK
  by_cases h1 : hasSub (strC "101") L = true
  · by_cases h2 : K = expected
    · simp [h1, h2]
    · have h1' : hasSub ['1', '0', '1'] L = true := by simpa [strC] using h1
      simp [h1', h2, strC]
  · have h1' : hasSub ['1', '0', '1'] L = false := by simpa [strC] using h1
    simp [h1', strC]

/-- Witness for C5 at a concrete accepted handshake and a concrete
rejected one. -/
theorem claim_C5_witness :
    (validateHandshakeResponse
        (strC "HTTP/1.1 101 Switching Protocols\r\nSec-WebSocket-Accept: abc\r\n\r\n")
        (strC "abc")).valid = true
    ∧ (validateHandshakeResponse (strC "HTTP/1.1 400 Bad Request\r\n\r\n")
        (strC "abc")).error ≠ [] :=
  ⟨(claim_C5 (strC "HTTP/1.1 101 Switching Protocols\r\nSec-WebSocket-Accept: abc\r\n\r\n")
      (strC "abc")).1.mpr (by decide),
   (claim_C5 (strC "HTTP/1.1 400 Bad Request\r\n\r\n") (strC "abc")).2 (by decide)⟩

/-! ## Handshake accept key (`calculateAcceptKey`, `src/lib/websocket/index.js`)

The source computes `base64(SHA-1(key + GUID))` through Node's `crypto`
library.  The embedding implements SHA-1 (FIPS 180-4) and standard base64
over byte lists, plus the UTF-8 encoding `Buffer`/`hash.update` apply to
the input string, and defines `calculateAcceptKey` as the same
composition.  The RFC 6455 reference vector validates the
implementation. -/

/-- UTF-8 encoding of one character. -/
def utf8Char (c : Char) : List Nat :=
  let n := c.toNat
  if n < 128 then [n]
  else if n < 2048 then [192 ||| (n >>> 6), 128 ||| (n &&& 63)]
  else if n < 65536 then
    [224 ||| (n >>> 12), 128 ||| ((n >>> 6) &&& 63), 128 ||| (n &&& 63)]
  else
    [240 ||| (n >>> 18), 128 ||| ((n >>> 12) &&& 63),
     128 ||| ((n >>> 6) &&& 63), 128 ||| (n &&& 63)]

/-- UTF-8 bytes of a string (`Buffer.from(string)`). -/
def strBytes (s : String) : List Nat := s.data.flatMap utf8Char

/-- 32-bit left rotation. -/
def rotl32 (x n : Nat) : Nat :=
  ((x <<< n) ||| (x >>> (32 - n))) % 4294967296

/-- SHA-1 message padding: `0x80`, zeros to 56 mod 64, then the bit length
as a 64-bit big-endian integer. -/
def sha1Pad (msg : List Nat) : List Nat :=
  msg ++ [128] ++ List.replicate ((119 - msg.length % 64) % 64) 0
    ++ write64BE (msg.length * 8)

/-- Big-endian 32-bit word `i` of a 64-byte block. -/
def beWord (block : List Nat) (i : Nat) : Nat :=
  block.getD (4 * i) 0 * 16777216 + block.getD (4 * i + 1) 0 * 65536 +
  block.getD (4 * i + 2) 0 * 256 + block.getD (4 * i + 3) 0

/-- SHA-1 message-schedule extension from 16 to 80 words. -/
def sha1Extend (w : List Nat) : List Nat :=
  (List.range 64).foldl (fun acc _ =>
    acc ++ [rotl32 (acc.getD (acc.length - 3) 0 ^^^ acc.getD (acc.length - 8) 0 ^^^
      acc.getD (acc.length - 14) 0 ^^^ acc.getD (acc.length - 16) 0) 1]) w

/-- SHA-1 round function per 20-round group. -/
def sha1F (t b c d : Nat) : Nat :=
  if t < 20 then (b &&& c) ||| ((b ^^^ 4294967295) &&& d)
  else if t < 40 then b ^^^ c ^^^ d
  else if t < 60 then (b &&& c) ||| (b &&& d) ||| (c &&& d)
  else b ^^^ c ^^^ d

/-- SHA-1 round constant per 20-round group. -/
def sha1K (t : Nat) : Nat :=
  if t < 20 then 1518500249
  else if t < 40 then 1859775393
  else if t < 60 then 2400959708
  else 3395469782

/-- One SHA-1 round on the five-word state. -/
def sha1Round (w : List Nat) (st : Nat × Nat × Nat × Nat × Nat) (t : Nat) :
    Nat × Nat × Nat × Nat × Nat :=
  let (a, b, c, d, e) := st
  ((rotl32 a 5 + sha1F t b c d + e + sha1K t + w.getD t 0) % 4294967296,
   a, rotl32 b 30, c, d)

/-- SHA-1 compression of one 64-byte block into the running state. -/
def sha1Block (h : Nat × Nat × Nat × Nat × Nat) (block : List Nat) :
    Nat × Nat × Nat × Nat × Nat :=
  let w := sha1Extend ((List.range 16).map (beWord block))
  let (h0, h1, h2, h3, h4) := h
  let (a, b, c, d, e) := (List.range 80).foldl (sha1Round w) (h0, h1, h2, h3, h4)
  ((h0 + a) % 4294967296, (h1 + b) % 4294967296, (h2 + c) % 4294967296,
   (h3 + d) % 4294967296, (h4 + e) % 4294967296)

/-- Fold SHA-1 compression over the 64-byte blocks of a padded message,
with an explicit fuel bound (any fuel of at least the number of blocks
computes the digest; `sha1` passes the padded length, which always
suffices since each step consumes 64 bytes). -/
def sha1Blocks : Nat → Nat × Nat × Nat × Nat × Nat → List Nat →
    Nat × Nat × Nat × Nat × Nat
  | _, h, [] => h
  | 0, h, _ => h
  | fuel + 1, h, l => sha1Blocks fuel (sha1Block h (l.take 64)) (l.drop 64)

/-- Big-endian bytes of a 32-bit word. -/
def wordBytes (n : Nat) : List Nat :=
  [n / 16777216 % 256, n / 65536 % 256, n / 256 % 256, n % 256]

/-- SHA-1 digest (20 bytes) of a byte list. -/
def sha1 (msg : List Nat) : List Nat :=
  let padded := sha1Pad msg
  let (h0, h1, h2, h3, h4) :=
    sha1Blocks padded.length
      (1732584193, 4023233417, 2562383102, 271733878, 3285377520) padded
  wordBytes h0 ++ wordBytes h1 ++ wordBytes h2 ++ wordBytes h3 ++ wordBytes h4

/-- The base64 alphabet. -/
def b64Char (i : Nat) : Char :=
  (strC "ABCDEFGHIJKLMNOPQRSTUVWXYZabcdefghijklmnopqrstuvwxyz0123456789+/").getD i 'A'

/-- Standard base64 encoding with `=` padding. -/
def base64Encode : List Nat → List Char
  | b0 :: b1 :: b2 :: rest =>
    let n := b0 * 65536 + b1 * 256 + b2
    b64Char (n >>> 18) :: b64Char ((n >>> 12) &&& 63) :: b64Char ((n >>> 6) &&& 63)
      :: b64Char (n &&& 63) :: base64Encode rest
  | [b0, b1] =>
    let n := b0 * 65536 + b1 * 256
    [b64Char (n >>> 18), b64Char ((n >>> 12) &&& 63), b64Char ((n >>> 6) &&& 63), '=']
  | [b0] =>
    let n := b0 * 65536
    [b64Char (n >>> 18), b64Char ((n >>> 12) &&& 63), '=', '=']
  | [] => []

/-- The fixed RFC 6455 GUID appended to the client key. -/
def acceptGUID : String := "258EAFA5-E914-47DA-95CA-C5AB0DC85B11"

/-- `calculateAcceptKey` from `src/lib/websocket/index.js`:
`base64(SHA-1(key + GUID))`. -/
def calculateAcceptKey (key : String) : String :=
  String.mk (base64Encode (sha1 (strBytes (key ++ acceptGUID))))

set_option maxRecDepth 16000 in
/-- C6: for every key string, `calculateAcceptKey key` equals the base64
encoding of the SHA-1 digest of the UTF-8 bytes of the key concatenated
with the fixed GUID `258EAFA5-E914-47DA-95CA-C5AB0DC85B11`; in particular
the RFC 6455 reference vector `dGhlIHNhbXBsZSBub25jZQ==` maps to exactly
`s3pPLMBiTxaQ9kYGzzhZRbK+xOo=`, validating the embedded SHA-1 and base64
against the library implementations the source calls. -/
theorem claim_C6 :
    (∀ key : String, calculateAcceptKey key
        = String.mk (base64Encode (sha1 (strBytes
            (key ++ "258EAFA5-E914-47DA-95CA-C5AB0DC85B11")))))
    ∧ calculateAcceptKey "dGhlIHNhbXBsZSBub25jZQ=="
        = "s3pPLMBiTxaQ9kYGzzhZRbK+xOo=" :=
  ⟨fun _ => rfl, by decide⟩

/-! ## HTTP request builder (`src/lib/http/request.js`)

The request builder produces a Node `Buffer`; strings entering it are
modelled as their byte lists (UTF-8 via `strB` for literals), `toLowerCase`
and `toUpperCase` as ASCII case maps on bytes, and `fs.readFileSync` as an
explicit `readFile : List Nat → Option (List Nat)` parameter (`none`
models a read error, which the source turns into a thrown `Error`, here an
`Except.error`).  The random multipart boundary is the explicit `boundary`
parameter. -/

/-- ASCII `toLowerCase` on a byte. -/
def lowerB (b : Nat) : Nat := if 65 ≤ b ∧ b ≤ 90 then b + 32 else b

/-- ASCII `toUpperCase` on a byte. -/
def upperB (b : Nat) : Nat := if 97 ≤ b ∧ b ≤ 122 then b - 32 else b

/-- `strBytes` of a literal, named for the request-builder sections. -/
def strB (s : String) : List Nat := strBytes s

/-- ASCII whitespace trimmed by `trim` on header-option bytes. -/
def isSpaceB (b : Nat) : Bool :=
  b == 32 || b == 9 || b == 10 || b == 13 || b == 11 || b == 12

/-- JavaScript `trim` on a byte string. -/
def trimB (l : List Nat) : List Nat :=
  ((l.dropWhile isSpaceB).reverse.dropWhile isSpaceB).reverse

/-- `hasHeader` from `src/lib/http/request.js`: some caller header,
lower-cased, starts with the lower-cased name followed by a colon. -/
def hasHeader (headers : List (List Nat)) (name : List Nat) : Bool :=
  headers.any (fun h => (name.map lowerB ++ [58]).isPrefixOf (h.map lowerB))

/-- `path.basename` (POSIX) of a path: the part after the last slash,
trailing slashes stripped. -/
def basenameB (p : List Nat) : List Nat :=
  ((p.reverse.dropWhile (fun b => b == 47)).takeWhile (fun b => b ≠ 47)).reverse

/-- The parsed `@filepath;filename=name;type=mimetype` micro-syntax. -/
structure FileOptions where
  filePath : List Nat
  fileName : List Nat
  mimeType : List Nat
deriving DecidableEq, Repr

/-- `parseFileOptions` from `src/lib/http/request.js`: strip the leading
`@`, split on `;`; the first part is the file path, later `filename=` and
`type=` options (trimmed) override the defaults (basename of the path,
`application/octet-stream`); the override filename is taken verbatim. -/
def parseFileOptions (value : List Nat) : FileOptions :=
  let parts := splitSep 59 (value.drop 1)
  let filePath := parts.headD []
  let fm := (parts.drop 1).foldl (fun acc part =>
    let opt := trimB part
    if (strB "filename=").isPrefixOf opt then (opt.drop 9, acc.2)
    else if (strB "type=").isPrefixOf opt then (acc.1, opt.drop 5)
    else acc) (basenameB filePath, strB "application/octet-stream")
  { filePath := filePath, fileName := fm.1, mimeType := fm.2 }

/-- The field loop of `buildMultipartBody`: each `name=value` field whose
value starts with `@` becomes a file part (propagating a read failure as
the thrown error), any other field with an `=` becomes a literal part, and
a field without `=` is skipped (`continue`). -/
def buildMultipartParts (readFile : List Nat → Option (List Nat))
    (boundary : List Nat) : List (List Nat) → Except (List Nat) (List Nat)
  | [] => .ok []
  | field :: rest =>
    match field.findIdx? (fun b => b == 61) with
    | none => buildMultipartParts readFile boundary rest
    | some eqIndex =>
      let name := field.take eqIndex
      let value := field.drop (eqIndex + 1)
      if (strB "@").isPrefixOf value then
        let fo := parseFileOptions value
        match readFile fo.filePath with
        | none => .error (strB "Error reading file: " ++ fo.filePath)
        | some fileContent =>
          match buildMultipartParts readFile boundary rest with
          | .error e => .error e
          | .ok tail =>
            .ok (strB "--" ++ boundary
              ++ strB "\r\nContent-Disposition: form-data; name=\"" ++ name
              ++ strB "\"; filename=\"" ++ fo.fileName
              ++ strB "\"\r\nContent-Type: " ++ fo.mimeType
              ++ strB "\r\n\r\n" ++ fileContent ++ strB "\r\n" ++ tail)
      else
        match buildMultipartParts readFile boundary rest with
        | .error e => .error e
        | .ok tail =>
          .ok (strB "--" ++ boundary
            ++ strB "\r\nContent-Disposition: form-data; name=\"" ++ name
            ++ strB "\"\r\n\r\n" ++ value ++ strB "\r\n" ++ tail)

/-- `buildMultipartBody` from `src/lib/http/request.js`: the concatenated
parts followed by the final boundary marker. -/
def buildMultipartBody (readFile : List Nat → Option (List Nat))
    (formFields : List (List Nat)) (boundary : List Nat) :
    Except (List Nat) (List Nat) :=
  match buildMultipartParts readFile boundary formFields with
  | .error e => .error e
  | .ok parts => .ok (parts ++ strB "--" ++ boundary ++ strB "--\r\n")

/-- The options record of `buildRequest`, with the source's defaults. -/
structure RequestOptions where
  method : List Nat := strB "GET"
  host : List Nat := []
  port : Nat := 80
  path : List Nat := strB "/"
  data : List Nat := []
  form : List (List Nat) := []
  headers : List (List Nat) := []
  cookie : List Nat := []
  useProxy : Bool := false

/-- Decimal digits of a number (`toString` on a length), with explicit
fuel (always sufficient at `n + 1`). -/
def natDecAux : Nat → Nat → List Nat
  | 0, _ => []
  | fuel + 1, n => if n < 10 then [48 + n] else natDecAux fuel (n / 10) ++ [48 + n % 10]

/-- `toString` of a byte count, as bytes. -/
def natDec (n : Nat) : List Nat := natDecAux (n + 1) n

/-- The caller-header loop of `buildRequest`: each header followed by
CRLF. -/
def joinCRLF (headers : List (List Nat)) : List Nat :=
  headers.foldl (fun acc h => acc ++ h ++ strB "\r\n") []

/-- `buildRequest` from `src/lib/http/request.js`: request line (absolute
URI when proxied), mandatory `Host` and `Connection: close`, optional
`Cookie`, caller headers verbatim in order, then the body branch: a
multipart body when form fields are present (`Content-Type` auto-added
only when no caller header matches, `Content-Length` always), a literal
data body otherwise (same header handling), or no body. -/
def buildRequest (readFile : List Nat → Option (List Nat))
    (o : RequestOptions) (boundary : List Nat) :
    Except (List Nat) (List Nat) :=
  let requestLine :=
    if o.useProxy then
      o.method.map upperB ++ strB " http://" ++ o.host ++ strB ":"
        ++ natDec o.port ++ o.path ++ strB " HTTP/1.1"
    else o.method.map upperB ++ strB " " ++ o.path ++ strB " HTTP/1.1"
  let base := requestLine ++ strB "\r\n"
    ++ strB "Host: " ++ o.host ++ strB "\r\n"
    ++ strB "Connection: close\r\n"
    ++ (if o.cookie ≠ [] then strB "Cookie: " ++ o.cookie ++ strB "\r\n" else [])
    ++ joinCRLF o.headers
  if o.form ≠ [] then
    match buildMultipartBody readFile o.form boundary with
    | .error e => .error e
    | .ok body =>
      .ok (base
        ++ (if !hasHeader o.headers (strB "Content-Type") then
              strB "Content-Type: multipart/form-data; boundary=" ++ boundary
                ++ strB "\r\n"
            else [])
        ++ strB "Content-Length: " ++ natDec body.length ++ strB "\r\n\r\n"
        ++ body)
  else if o.data ≠ [] then
    .ok (base
      ++ (if !hasHeader o.headers (strB "Content-Type") then
            strB "Content-Type: application/x-www-form-urlencoded\r\n"
          else [])
      ++ strB "Content-Length: " ++ natDec o.data.length ++ strB "\r\n\r\n"
      ++ o.data)
  else .ok (base ++ strB "\r\n")

set_option maxRecDepth 8000 in
/-- C8: for the form-field list
`["name=photo", "file=@/tmp/x.txt;filename=../../etc/passwd"]` with the
referenced file readable (`readFile "/tmp/x.txt" = some content`), the
multipart body contains, in order: a part with
`Content-Disposition: form-data; name="name"` and literal value `photo`,
and a part with
`Content-Disposition: form-data; name="file"; filename="../../etc/passwd"`
— the override filename used verbatim, with no path-traversal
sanitization — with default content type and the file bytes, then the
closing boundary. -/
theorem claim_C8 (rf : List Nat → Option (List Nat)) (content boundary : List Nat)
    (hread : rf (strB "/tmp/x.txt") = some content) :
    buildMultipartBody rf
        [strB "name=photo", strB "file=@/tmp/x.txt;filename=../../etc/passwd"]
        boundary
      = .ok (strB "--" ++ boundary
          ++ strB "\r\nContent-Disposition: form-data; name=\"name\"\r\n\r\nphoto\r\n"
          ++ (strB "--" ++ boundary
          ++ strB "\r\nContent-Disposition: form-data; name=\"file\"; filename=\"../../etc/passwd\"\r\nContent-Type: application/octet-stream\r\n\r\n"
          ++ content ++ strB "\r\n")
          ++ (strB "--" ++ boundary ++ strB "--\r\n")) := by
  have h1 : (strB "name=photo").findIdx? (fun b => b == 61) = some 4 := rfl
  have h2 : (strB "file=@/tmp/x.txt;filename=../../etc/passwd").findIdx?
      (fun b => b == 61) = some 4 := rfl
  have t1 : (strB "name=photo").take 4 = strB "name" := rfl
  have t2 : (strB "name=photo").drop 5 = strB "photo" := rfl
  have t3 : (strB "file=@/tmp/x.txt;filename=../../etc/passwd").take 4 = strB "file" := rfl
  have t4 : (strB "file=@/tmp/x.txt;filename=../../etc/passwd").drop 5
      = strB "@/tmp/x.txt;filename=../../etc/passwd" := rfl
  have t5 : (strB "@").isPrefixOf (strB "photo") = false := rfl
  have t6 : (strB "@").isPrefixOf (strB "@/tmp/x.txt;filename=../../etc/passwd") = true := rfl
  have t7 : parseFileOptions (strB "@/tmp/x.txt;filename=../../etc/passwd")
      = { filePath := strB "/tmp/x.txt", fileName := strB "../../etc/passwd",
          mimeType := strB "application/octet-stream" } := by decide
  have m1 : strB "\r\nContent-Disposition: form-data; name=\"name\"\r\n\r\nphoto\r\n"
      = strB "\r\nContent-Disposition: form-data; name=\"" ++ strB "name"
        ++ strB "\"\r\n\r\n" ++ strB "photo" ++ strB "\r\n" := rfl
  have m2 : strB "\r\nContent-Disposition: form-data; name=\"file\"; filename=\"../../etc/passwd\"\r\nContent-Type: application/octet-stream\r\n\r\n"
      = strB "\r\nContent-Disposition: form-data; name=\"" ++ strB "file"
        ++ strB "\"; filename=\"" ++ strB "../../etc/passwd"
        ++ strB "\"\r\nContent-Type: " ++ strB "application/octet-stream"
        ++ strB "\r\n\r\n" := rfl
  simp only [buildMultipartBody, buildMultipartParts, h1, h2, t1, t2, t3, t4, t5, t6, t7,
    hread, Bool.false_eq_true, if_false, if_true]
  simp [m1, m2, List.append_assoc]

set_option maxRecDepth 4000 in
/-- Witness for C8 at a concrete file system and boundary. -/
theorem claim_C8_witness :
    buildMultipartBody
        (fun p => if p = strB "/tmp/x.txt" then some (strB "DATA") else none)
        [strB "name=photo", strB "file=@/tmp/x.txt;filename=../../etc/passwd"]
        (strB "B")
      = .ok (strB "--" ++ strB "B"
          ++ strB "\r\nContent-Disposition: form-data; name=\"name\"\r\n\r\nphoto\r\n"
          ++ (strB "--" ++ strB "B"
          ++ strB "\r\nContent-Disposition: form-data; name=\"file\"; filename=\"../../etc/passwd\"\r\nContent-Type: application/octet-stream\r\n\r\n"
          ++ strB "DATA" ++ strB "\r\n")
          ++ (strB "--" ++ strB "B" ++ strB "--\r\n")) :=
  claim_C8 (fun p => if p = strB "/tmp/x.txt" then some (strB "DATA") else none)
    (strB "DATA") (strB "B") (by decide)

/-! ### Observers on the emitted request bytes (for the header-addition
claims): CRLF-separated lines of the header block and header-line counts -/

/-- Whether a line is a header line with the given name (name matched
case-insensitively, as `hasHeader` does). -/
def lineIsHdr (name line : List Nat) : Bool :=
  (name.map lowerB ++ [58]).isPrefixOf (line.map lowerB)

/-- The emitted header block of a request byte string: the CRLF-separated
lines after the request line and before the first empty line (the blank
line that terminates the block on the wire). -/
def headerBlockLines (bytes : List Nat) : List (List Nat) :=
  ((splitSep2 13 10 bytes).drop 1).takeWhile (fun l => !l.isEmpty)

/-- How many lines of the emitted header block carry the given header
name. -/
def countHdr (bytes name : List Nat) : Nat :=
  (headerBlockLines bytes).countP (lineIsHdr name)

/-- The bytes of a successful build (empty on error). -/
def exceptBytes : Except (List Nat) (List Nat) → List Nat
  | .ok b => b
  | .error _ => []

set_option maxRecDepth 8000 in
/-- C4 counterexample: the claim asserts that the auto-added
`Content-Length` header is suppressed when the caller already supplies a
case-insensitively matching header.  For a request with body data `"x"`
and caller header `Content-Length: 999` the builder emits *two*
`Content-Length` lines — the caller's and the auto-added one — because the
source only guards `Content-Type` with `hasHeader` and appends
`Content-Length` unconditionally. -/
theorem claim_C4_counterexample :
    hasHeader [strB "Content-Length: 999"] (strB "Content-Length") = true
    ∧ countHdr (exceptBytes (buildRequest (fun _ => none)
        { method := strB "POST", host := strB "h", data := strB "x",
          headers := [strB "Content-Length: 999"] } []))
        (strB "Content-Length") = 2 := by decide

/-! ### Line decomposition of the emitted request bytes -/

theorem upperB_ne_13 (b : Nat) (h : b ≠ 13) : upperB b ≠ 13 := by
  unfold upperB
  split <;> omega

theorem natDecAux_mem (fuel n : Nat) : ∀ b ∈ natDecAux fuel n, 48 ≤ b ∧ b ≤ 57 := by
  induction fuel generalizing n with
  | zero => simp [natDecAux]
  | succ fuel ih =>
    intro b hb
    simp only [natDecAux] at hb
    by_cases hn : n < 10
    · rw [if_pos hn] at hb
      simp at hb
      omega
    · rw [if_neg hn] at hb
      rcases List.mem_append.mp hb with h1 | h2
      · exact ih (n / 10) b h1
      · simp at h2
        omega

theorem splitSep2_cons_crlf (rest : List Nat) :
    splitSep2 13 10 (13 :: 10 :: rest) = [] :: splitSep2 13 10 rest := by
  simp [splitSep2]

theorem splitSep2_crlf_append (L rest : List Nat) (h : ∀ b ∈ L, b ≠ 13) :
    splitSep2 13 10 (L ++ 13 :: 10 :: rest) = L :: splitSep2 13 10 rest := by
  induction L with
  | nil => simp [splitSep2_cons_crlf]
  | cons x t ih =>
    have hx : x ≠ 13 := h x (List.mem_cons_self x t)
    have ht : ∀ b ∈ t, b ≠ 13 := fun b hb => h b (List.mem_cons_of_mem x hb)
    cases t with
    | nil =>
      simp only [List.nil_append] at ih ⊢
      simp [splitSep2, hx, splitSep2_cons_crlf]
    | cons y t2 =>
      simp only [List.cons_append] at ih ⊢
      simp only [splitSep2, if_neg (by simp [hx] : ¬(x = 13 ∧ y = 10))]
      rw [ih ht]

/-- Explicit CRLF-joined lines followed by a tail. -/
def joinLines : List (List Nat) → List Nat → List Nat
  | [], tail => tail
  | L :: rest, tail => L ++ 13 :: 10 :: joinLines rest tail

theorem joinLines_append (A B : List (List Nat)) (t : List Nat) :
    joinLines (A ++ B) t = joinLines A (joinLines B t) := by
  induction A with
  | nil => rfl
  | cons L A ih => simp [joinLines, ih]

theorem joinLines_assoc (hs : List (List Nat)) (t u : List Nat) :
    joinLines hs t ++ u = joinLines hs (t ++ u) := by
  induction hs with
  | nil => rfl
  | cons L rest ih => simp [joinLines, List.append_assoc, ih]

theorem joinCRLF_foldl (a : List Nat) (hs : List (List Nat)) :
    hs.foldl (fun acc h => acc ++ h ++ strB "\r\n") a
      = a ++ hs.foldl (fun acc h => acc ++ h ++ strB "\r\n") [] := by
  induction hs generalizing a with
  | nil => simp
  | cons h t ih =>
    simp only [List.foldl_cons]
    rw [ih (a ++ h ++ strB "\r\n"), ih ([] ++ h ++ strB "\r\n")]
    simp

theorem joinCRLF_append (hs : List (List Nat)) (t : List Nat) :
    joinCRLF hs ++ t = joinLines hs t := by
  induction hs with
  | nil => rfl
  | cons h rest ih =>
    unfold joinCRLF at ih ⊢
    simp only [List.foldl_cons]
    rw [joinCRLF_foldl ([] ++ h ++ strB "\r\n")]
    simp only [joinLines, List.nil_append]
    rw [← ih]
    rw [show strB "\r\n" = [13, 10] from rfl]
    simp

theorem splitSep2_joinLines (ls : List (List Nat)) (tail : List Nat)
    (h : ∀ L ∈ ls, ∀ b ∈ L, b ≠ 13) :
    splitSep2 13 10 (joinLines ls tail) = ls ++ splitSep2 13 10 tail := by
  induction ls with
  | nil => rfl
  | cons L rest ih =>
    simp only [joinLines]
    rw [splitSep2_crlf_append _ _ (h L (List.mem_cons_self L rest)),
      ih (fun L' hL' => h L' (List.mem_cons_of_mem L hL'))]
    rfl

theorem takeWhile_append_all {α : Type} (p : α → Bool) (xs ys : List α)
    (h : ∀ x ∈ xs, p x = true) :
    (xs ++ ys).takeWhile p = xs ++ ys.takeWhile p := by
  induction xs with
  | nil => rfl
  | cons x t ih =>
    simp only [List.cons_append, List.takeWhile_cons,
      h x (List.mem_cons_self x t), if_true]
    rw [ih (fun x' hx' => h x' (List.mem_cons_of_mem x hx'))]

theorem headerBlockLines_joinLines (req : List Nat) (LS : List (List Nat))
    (body : List Nat) (hreq : ∀ b ∈ req, b ≠ 13)
    (hLS : ∀ L ∈ LS, (∀ b ∈ L, b ≠ 13) ∧ L ≠ []) :
    headerBlockLines (joinLines (req :: LS) (13 :: 10 :: body)) = LS := by
  unfold headerBlockLines
  rw [splitSep2_joinLines (req :: LS) (13 :: 10 :: body)
    (by
      intro L hL
      rcases List.mem_cons.mp hL with rfl | hL'
      · exact hreq
      · exact (hLS L hL').1)]
  rw [splitSep2_cons_crlf]
  simp only [List.cons_append, List.drop_succ_cons, List.drop_zero]
  rw [takeWhile_append_all _ LS _
    (by
      intro L hL
      simp [List.isEmpty_iff, (hLS L hL).2])]
  simp

theorem isPrefixOf_append_true (pat pre suf : List Nat)
    (h : pat.isPrefixOf pre = true) : pat.isPrefixOf (pre ++ suf) = true := by
  induction pat generalizing pre with
  | nil => simp [List.isPrefixOf]
  | cons a as ih =>
    cases pre with
    | nil => simp [List.isPrefixOf] at h
    | cons b bs =>
      simp only [List.cons_append, List.isPrefixOf, Bool.and_eq_true] at h ⊢
      exact ⟨h.1, ih bs h.2⟩

theorem isPrefixOf_append_false (pat pre suf : List Nat)
    (h1 : pat.isPrefixOf pre = false) (h2 : pre.isPrefixOf pat = false) :
    pat.isPrefixOf (pre ++ suf) = false := by
  induction pat generalizing pre with
  | nil => simp [List.isPrefixOf] at h1
  | cons a as ih =>
    cases pre with
    | nil => simp [List.isPrefixOf] at h2
    | cons b bs =>
      simp only [List.cons_append, List.isPrefixOf] at h1 h2 ⊢
      cases hab : a == b with
      | false => simp [hab]
      | true =>
        have hba : b == a := by
          simp at hab
          simp [hab]
        simp [hab] at h1
        simp [hba] at h2
        simp [hab, ih bs h1 h2]

theorem lineIsHdr_append_true (name pre suf : List Nat)
    (h : (name.map lowerB ++ [58]).isPrefixOf (pre.map lowerB) = true) :
    lineIsHdr name (pre ++ suf) = true := by
  unfold lineIsHdr
  rw [List.map_append]
  exact isPrefixOf_append_true _ _ _ h

theorem lineIsHdr_append_false (name pre suf : List Nat)
    (h1 : (name.map lowerB ++ [58]).isPrefixOf (pre.map lowerB) = false)
    (h2 : (pre.map lowerB).isPrefixOf (name.map lowerB ++ [58]) = false) :
    lineIsHdr name (pre ++ suf) = false := by
  unfold lineIsHdr
  rw [List.map_append]
  exact isPrefixOf_append_false _ _ _ h1 h2

theorem noCR_append (l1 l2 : List Nat) (h1 : ∀ b ∈ l1, b ≠ 13)
    (h2 : ∀ b ∈ l2, b ≠ 13) : ∀ b ∈ l1 ++ l2, b ≠ 13 := by
  intro b hb
  rcases List.mem_append.mp hb with h | h
  · exact h1 b h
  · exact h2 b h

/-- C4 amended: for every build with a body (non-empty form list, or
otherwise non-empty data), provided the caller-controlled strings contain
no carriage return (so that the emitted header block is well formed) and
every caller header line is non-empty: the emitted header block contains
exactly the caller's `Content-Length` lines *plus one* auto-added
`Content-Length` (the auto-addition is never suppressed), and exactly the
caller's `Content-Type` lines plus one auto-added `Content-Type` exactly
when no caller header matches `Content-Type` case-insensitively.  This
corrects the claim: only `Content-Type` is guarded by `hasHeader`;
`Content-Length` is appended unconditionally. -/
theorem claim_C4_amended (rf : List Nat → Option (List Nat)) (o : RequestOptions)
    (boundary out : List Nat)
    (hout : buildRequest rf o boundary = .ok out)
    (hbody : o.form ≠ [] ∨ o.data ≠ [])
    (hmethod : ∀ b ∈ o.method, b ≠ 13) (hpath : ∀ b ∈ o.path, b ≠ 13)
    (hhost : ∀ b ∈ o.host, b ≠ 13) (hcookie : ∀ b ∈ o.cookie, b ≠ 13)
    (hheaders : ∀ h ∈ o.headers, (∀ b ∈ h, b ≠ 13) ∧ h ≠ [])
    (hboundary : ∀ b ∈ boundary, b ≠ 13) :
    countHdr out (strB "Content-Length")
      = o.headers.countP (lineIsHdr (strB "Content-Length")) + 1
    ∧ countHdr out (strB "Content-Type")
      = o.headers.countP (lineIsHdr (strB "Content-Type"))
        + (if hasHeader o.headers (strB "Content-Type") then 0 else 1) := by
  have hreqM : ∀ b ∈ o.method.map upperB, b ≠ 13 := by
    intro b hb
    obtain ⟨x, hx, rfl⟩ := List.mem_map.mp hb
    exact upperB_ne_13 x (hmethod x hx)
  have hport : ∀ b ∈ natDec o.port, b ≠ 13 := by
    intro b hb
    have := natDecAux_mem _ _ b hb
    omega
  have hreq : ∀ b ∈ (if o.useProxy then
      o.method.map upperB ++ strB " http://" ++ o.host ++ strB ":"
        ++ natDec o.port ++ o.path ++ strB " HTTP/1.1"
    else o.method.map upperB ++ strB " " ++ o.path ++ strB " HTTP/1.1"), b ≠ 13 := by
    cases o.useProxy
    · rw [if_neg (by simp)]
      intro b hb
      simp only [List.mem_append] at hb
      rcases hb with ((h | h) | h) | h
      · exact hreqM b h
      · exact (by decide : ∀ b ∈ strB " ", b ≠ 13) b h
      · exact hpath b h
      · exact (by decide : ∀ b ∈ strB " HTTP/1.1", b ≠ 13) b h
    · rw [if_pos rfl]
      intro b hb
      simp only [List.mem_append] at hb
      rcases hb with ((((((h | h) | h) | h) | h) | h) | h)
      · exact hreqM b h
      · exact (by decide : ∀ b ∈ strB " http://", b ≠ 13) b h
      · exact hhost b h
      · exact (by decide : ∀ b ∈ strB ":", b ≠ 13) b h
      · exact hport b h
      · exact hpath b h
      · exact (by decide : ∀ b ∈ strB " HTTP/1.1", b ≠ 13) b h
  have hhostL : ∀ b ∈ strB "Host: " ++ o.host, b ≠ 13 :=
    noCR_append _ _ (by decide) hhost
  have hcookieL : ∀ b ∈ strB "Cookie: " ++ o.cookie, b ≠ 13 :=
    noCR_append _ _ (by decide) hcookie
  have f1 : lineIsHdr (strB "Content-Length") (strB "Host: " ++ o.host) = false :=
    lineIsHdr_append_false _ _ _ (by decide) (by decide)
  have f2 : lineIsHdr (strB "Content-Length") (strB "Connection: close") = false := by
    decide
  have f3 : lineIsHdr (strB "Content-Length") (strB "Cookie: " ++ o.cookie) = false :=
    lineIsHdr_append_false _ _ _ (by decide) (by decide)
  have g1 : lineIsHdr (strB "Content-Type") (strB "Host: " ++ o.host) = false :=
    lineIsHdr_append_false _ _ _ (by decide) (by decide)
  have g2 : lineIsHdr (strB "Content-Type") (strB "Connection: close") = false := by
    decide
  have g3 : lineIsHdr (strB "Content-Type") (strB "Cookie: " ++ o.cookie) = false :=
    lineIsHdr_append_false _ _ _ (by decide) (by decide)
  have e1 : strB "\r\n" = [13, 10] := rfl
  have e2 : strB "Connection: close\r\n" = strB "Connection: close" ++ [13, 10] := rfl
  have e3 : strB "\r\n\r\n" = ([13, 10, 13, 10] : List Nat) := rfl
  have hhostNe : strB "Host: " ++ o.host ≠ [] := by
    rw [show strB "Host: " = 72 :: strB "ost: " from rfl]
    simp
  have hcookieNe : strB "Cookie: " ++ o.cookie ≠ [] := by
    rw [show strB "Cookie: " = 67 :: strB "ookie: " from rfl]
    simp
  simp only [buildRequest] at hout
  set R := (if o.useProxy then
      o.method.map upperB ++ strB " http://" ++ o.host ++ strB ":"
        ++ natDec o.port ++ o.path ++ strB " HTTP/1.1"
    else o.method.map upperB ++ strB " " ++ o.path ++ strB " HTTP/1.1") with hRdef
  by_cases hform : o.form ≠ []
  · rw [if_pos hform] at hout
    cases hmb : buildMultipartBody rf o.form boundary with
    | error e =>
      rw [hmb] at hout
      simp at hout
    | ok body =>
      rw [hmb] at hout
      simp only [Except.ok.injEq] at hout
      have hclN : ∀ b ∈ natDec body.length, b ≠ 13 := by
        intro b hb
        have := natDecAux_mem _ _ b hb
        omega
      have hclL : ∀ b ∈ strB "Content-Length: " ++ natDec body.length, b ≠ 13 :=
        noCR_append _ _ (by decide) hclN
      have hclNe : strB "Content-Length: " ++ natDec body.length ≠ [] := by
        rw [show strB "Content-Length: " = 67 :: strB "ontent-Length: " from rfl]
        simp
      have hctL : ∀ b ∈ strB "Content-Type: multipart/form-data; boundary="
          ++ boundary, b ≠ 13 := noCR_append _ _ (by decide) hboundary
      have hctNe : strB "Content-Type: multipart/form-data; boundary="
          ++ boundary ≠ [] := by
        rw [show strB "Content-Type: multipart/form-data; boundary="
          = 67 :: strB "ontent-Type: multipart/form-data; boundary=" from rfl]
        simp
      have f4 : lineIsHdr (strB "Content-Length")
          (strB "Content-Length: " ++ natDec body.length) = true :=
        lineIsHdr_append_true _ _ _ (by decide)
      have f5 : lineIsHdr (strB "Content-Length")
          (strB "Content-Type: multipart/form-data; boundary=" ++ boundary) = false :=
        lineIsHdr_append_false _ _ _ (by decide) (by decide)
      have g4 : lineIsHdr (strB "Content-Type")
          (strB "Content-Length: " ++ natDec body.length) = false :=
        lineIsHdr_append_false _ _ _ (by decide) (by decide)
      have g5 : lineIsHdr (strB "Content-Type")
          (strB "Content-Type: multipart/form-data; boundary=" ++ boundary) = true :=
        lineIsHdr_append_true _ _ _ (by decide)
      cases hhct : hasHeader o.headers (strB "Content-Type") with
      | true =>
        by_cases hck : o.cookie ≠ []
        · have hB : out = joinLines (R :: (strB "Host: " ++ o.host)
              :: strB "Connection: close" :: (strB "Cookie: " ++ o.cookie)
              :: (o.headers ++ [strB "Content-Length: " ++ natDec body.length]))
              (13 :: 10 :: body) := by
            rw [← hout]
            simp [hhct, hck, e1, e2, e3, joinLines, joinLines_append,
              joinLines_assoc, joinCRLF_append, List.append_assoc]
          have hlines : headerBlockLines out = (strB "Host: " ++ o.host)
              :: strB "Connection: close" :: (strB "Cookie: " ++ o.cookie)
              :: (o.headers ++ [strB "Content-Length: " ++ natDec body.length]) := by
            rw [hB]
            apply headerBlockLines_joinLines R _ body hreq
            intro L hL
            simp only [List.mem_cons, List.mem_append] at hL
            rcases hL with rfl | rfl | rfl | hL | hL
            · exact ⟨hhostL, hhostNe⟩
            · exact ⟨by decide, by decide⟩
            · exact ⟨hcookieL, hcookieNe⟩
            · exact hheaders L hL
            · simp only [List.not_mem_nil, or_false] at hL
              subst hL
              exact ⟨hclL, hclNe⟩
          unfold countHdr
          rw [hlines]
          simp only [List.countP_cons, List.countP_append, List.countP_nil,
            f1, f2, f3, f4, f5, g1, g2, g3, g4, g5, hhct]
          simp
        · have hB : out = joinLines (R :: (strB "Host: " ++ o.host)
              :: strB "Connection: close"
              :: (o.headers ++ [strB "Content-Length: " ++ natDec body.length]))
              (13 :: 10 :: body) := by
            rw [← hout]
            simp [hhct, hck, e1, e2, e3, joinLines, joinLines_append,
              joinLines_assoc, joinCRLF_append, List.append_assoc]
          have hlines : headerBlockLines out = (strB "Host: " ++ o.host)
              :: strB "Connection: close"
              :: (o.headers ++ [strB "Content-Length: " ++ natDec body.length]) := by
            rw [hB]
            apply headerBlockLines_joinLines R _ body hreq
            intro L hL
            simp only [List.mem_cons, List.mem_append] at hL
            rcases hL with rfl | rfl | hL | hL
            · exact ⟨hhostL, hhostNe⟩
            · exact ⟨by decide, by decide⟩
            · exact hheaders L hL
            · simp only [List.not_mem_nil, or_false] at hL
              subst hL
              exact ⟨hclL, hclNe⟩
          unfold countHdr
          rw [hlines]
          simp only [List.countP_cons, List.countP_append, List.countP_nil,
            f1, f2, f3, f4, f5, g1, g2, g3, g4, g5, hhct]
          simp
      | false =>
        by_cases hck : o.cookie ≠ []
        · have hB : out = joinLines (R :: (strB "Host: " ++ o.host)
              :: strB "Connection: close" :: (strB "Cookie: " ++ o.cookie)
              :: (o.headers
                ++ [strB "Content-Type: multipart/form-data; boundary=" ++ boundary,
                    strB "Content-Length: " ++ natDec body.length]))
              (13 :: 10 :: body) := by
            rw [← hout]
            simp [hhct, hck, e1, e2, e3, joinLines, joinLines_append,
              joinLines_assoc, joinCRLF_append, List.append_assoc]
          have hlines : headerBlockLines out = (strB "Host: " ++ o.host)
              :: strB "Connection: close" :: (strB "Cookie: " ++ o.cookie)
              :: (o.headers
                ++ [strB "Content-Type: multipart/form-data; boundary=" ++ boundary,
                    strB "Content-Length: " ++ natDec body.length]) := by
            rw [hB]
            apply headerBlockLines_joinLines R _ body hreq
            intro L hL
            simp only [List.mem_cons, List.mem_append] at hL
            rcases hL with rfl | rfl | rfl | hL | hL
            · exact ⟨hhostL, hhostNe⟩
            · exact ⟨by decide, by decide⟩
            · exact ⟨hcookieL, hcookieNe⟩
            · exact hheaders L hL
            · simp only [List.not_mem_nil, or_false] at hL
              rcases hL with rfl | rfl
              · exact ⟨hctL, hctNe⟩
              · exact ⟨hclL, hclNe⟩
          unfold countHdr
          rw [hlines]
          simp only [List.countP_cons, List.countP_append, List.countP_nil,
            f1, f2, f3, f4, f5, g1, g2, g3, g4, g5, hhct]
          simp
        · have hB : out = joinLines (R :: (strB "Host: " ++ o.host)
              :: strB "Connection: close"
              :: (o.headers
                ++ [strB "Content-Type: multipart/form-data; boundary=" ++ boundary,
                    strB "Content-Length: " ++ natDec body.length]))
              (13 :: 10 :: body) := by
            rw [← hout]
            simp [hhct, hck, e1, e2, e3, joinLines, joinLines_append,
              joinLines_assoc, joinCRLF_append, List.append_assoc]
          have hlines : headerBlockLines out = (strB "Host: " ++ o.host)
              :: strB "Connection: close"
              :: (o.headers
                ++ [strB "Content-Type: multipart/form-data; boundary=" ++ boundary,
                    strB "Content-Length: " ++ natDec body.length]) := by
            rw [hB]
            apply headerBlockLines_joinLines R _ body hreq
            intro L hL
            simp only [List.mem_cons, List.mem_append] at hL
            rcases hL with rfl | rfl | hL | hL
            · exact ⟨hhostL, hhostNe⟩
            · exact ⟨by decide, by decide⟩
            · exact hheaders L hL
            · simp only [List.not_mem_nil, or_false] at hL
              rcases hL with rfl | rfl
              · exact ⟨hctL, hctNe⟩
              · exact ⟨hclL, hclNe⟩
          unfold countHdr
          rw [hlines]
          simp only [List.countP_cons, List.countP_append, List.countP_nil,
            f1, f2, f3, f4, f5, g1, g2, g3, g4, g5, hhct]
          simp
  · have hdata : o.data ≠ [] := by tauto
    rw [if_neg hform, if_pos hdata] at hout
    simp only [Except.ok.injEq] at hout
    have hclN : ∀ b ∈ natDec o.data.length, b ≠ 13 := by
      intro b hb
      have := natDecAux_mem _ _ b hb
      omega
    have hclL : ∀ b ∈ strB "Content-Length: " ++ natDec o.data.length, b ≠ 13 :=
      noCR_append _ _ (by decide) hclN
    have hclNe : strB "Content-Length: " ++ natDec o.data.length ≠ [] := by
      rw [show strB "Content-Length: " = 67 :: strB "ontent-Length: " from rfl]
      simp
    have f4 : lineIsHdr (strB "Content-Length")
        (strB "Content-Length: " ++ natDec o.data.length) = true :=
      lineIsHdr_append_true _ _ _ (by decide)
    have f5 : lineIsHdr (strB "Content-Length")
        (strB "Content-Type: application/x-www-form-urlencoded") = false := by decide
    have g4 : lineIsHdr (strB "Content-Type")
        (strB "Content-Length: " ++ natDec o.data.length) = false :=
      lineIsHdr_append_false _ _ _ (by decide) (by decide)
    have g5 : lineIsHdr (strB "Content-Type")
        (strB "Content-Type: application/x-www-form-urlencoded") = true := by decide
    have e5 : strB "Content-Type: application/x-www-form-urlencoded\r\n"
        = strB "Content-Type: application/x-www-form-urlencoded" ++ [13, 10] := rfl
    cases hhct : hasHeader o.headers (strB "Content-Type") with
    | true =>
      by_cases hck : o.cookie ≠ []
      · have hB : out = joinLines (R :: (strB "Host: " ++ o.host)
            :: strB "Connection: close" :: (strB "Cookie: " ++ o.cookie)
            :: (o.headers ++ [strB "Content-Length: " ++ natDec o.data.length]))
            (13 :: 10 :: o.data) := by
          rw [← hout]
          simp [hhct, hck, e1, e2, e3, e5, joinLines, joinLines_append,
            joinLines_assoc, joinCRLF_append, List.append_assoc]
        have hlines : headerBlockLines out = (strB "Host: " ++ o.host)
            :: strB "Connection: close" :: (strB "Cookie: " ++ o.cookie)
            :: (o.headers ++ [strB "Content-Length: " ++ natDec o.data.length]) := by
          rw [hB]
          apply headerBlockLines_joinLines R _ o.data hreq
          intro L hL
          simp only [List.mem_cons, List.mem_append] at hL
          rcases hL with rfl | rfl | rfl | hL | hL
          · exact ⟨hhostL, hhostNe⟩
          · exact ⟨by decide, by decide⟩
          · exact ⟨hcookieL, hcookieNe⟩
          · exact hheaders L hL
          · simp only [List.not_mem_nil, or_false] at hL
            subst hL
            exact ⟨hclL, hclNe⟩
        unfold countHdr
        rw [hlines]
        simp only [List.countP_cons, List.countP_append, List.countP_nil,
          f1, f2, f3, f4, f5, g1, g2, g3, g4, g5, hhct]
        simp
      · have hB : out = joinLines (R :: (strB "Host: " ++ o.host)
            :: strB "Connection: close"
            :: (o.headers ++ [strB "Content-Length: " ++ natDec o.data.length]))
            (13 :: 10 :: o.data) := by
          rw [← hout]
          simp [hhct, hck, e1, e2, e3, e5, joinLines, joinLines_append,
            joinLines_assoc, joinCRLF_append, List.append_assoc]
        have hlines : headerBlockLines out = (strB "Host: " ++ o.host)
            :: strB "Connection: close"
            :: (o.headers ++ [strB "Content-Length: " ++ natDec o.data.length]) := by
          rw [hB]
          apply headerBlockLines_joinLines R _ o.data hreq
          intro L hL
          simp only [List.mem_cons, List.mem_append] at hL
          rcases hL with rfl | rfl | hL | hL
          · exact ⟨hhostL, hhostNe⟩
          · exact ⟨by decide, by decide⟩
          · exact hheaders L hL
          · simp only [List.not_mem_nil, or_false] at hL
            subst hL
            exact ⟨hclL, hclNe⟩
        unfold countHdr
        rw [hlines]
        simp only [List.countP_cons, List.countP_append, List.countP_nil,
          f1, f2, f3, f4, f5, g1, g2, g3, g4, g5, hhct]
        simp
    | false =>
      by_cases hck : o.cookie ≠ []
      · have hB : out = joinLines (R :: (strB "Host: " ++ o.host)
            :: strB "Connection: close" :: (strB "Cookie: " ++ o.cookie)
            :: (o.headers
              ++ [strB "Content-Type: application/x-www-form-urlencoded",
                  strB "Content-Length: " ++ natDec o.data.length]))
            (13 :: 10 :: o.data) := by
          rw [← hout]
          simp [hhct, hck, e1, e2, e3, e5, joinLines, joinLines_append,
            joinLines_assoc, joinCRLF_append, List.append_assoc]
        have hlines : headerBlockLines out = (strB "Host: " ++ o.host)
            :: strB "Connection: close" :: (strB "Cookie: " ++ o.cookie)
            :: (o.headers
              ++ [strB "Content-Type: application/x-www-form-urlencoded",
                  strB "Content-Length: " ++ natDec o.data.length]) := by
          rw [hB]
          apply headerBlockLines_joinLines R _ o.data hreq
          intro L hL
          simp only [List.mem_cons, List.mem_append] at hL
          rcases hL with rfl | rfl | rfl | hL | hL
          · exact ⟨hhostL, hhostNe⟩
          · exact ⟨by decide, by decide⟩
          · exact ⟨hcookieL, hcookieNe⟩
          · exact hheaders L hL
          · simp only [List.not_mem_nil, or_false] at hL
            rcases hL with rfl | rfl
            · exact ⟨by decide, by decide⟩
            · exact ⟨hclL, hclNe⟩
        unfold countHdr
        rw [hlines]
        simp only [List.countP_cons, List.countP_append, List.countP_nil,
          f1, f2, f3, f4, f5, g1, g2, g3, g4, g5, hhct]
        simp
      · have hB : out = joinLines (R :: (strB "Host: " ++ o.host)
            :: strB "Connection: close"
            :: (o.headers
              ++ [strB "Content-Type: application/x-www-form-urlencoded",
                  strB "Content-Length: " ++ natDec o.data.length]))
            (13 :: 10 :: o.data) := by
          rw [← hout]
          simp [hhct, hck, e1, e2, e3, e5, joinLines, joinLines_append,
            joinLines_assoc, joinCRLF_append, List.append_assoc]
        have hlines : headerBlockLines out = (strB "Host: " ++ o.host)
            :: strB "Connection: close"
            :: (o.headers
              ++ [strB "Content-Type: application/x-www-form-urlencoded",
                  strB "Content-Length: " ++ natDec o.data.length]) := by
          rw [hB]
          apply headerBlockLines_joinLines R _ o.data hreq
          intro L hL
          simp only [List.mem_cons, List.mem_append] at hL
          rcases hL with rfl | rfl | hL | hL
          · exact ⟨hhostL, hhostNe⟩
          · exact ⟨by decide, by decide⟩
          · exact hheaders L hL
          · simp only [List.not_mem_nil, or_false] at hL
            rcases hL with rfl | rfl
            · exact ⟨by decide, by decide⟩
            · exact ⟨hclL, hclNe⟩
        unfold countHdr
        rw [hlines]
        simp only [List.countP_cons, List.countP_append, List.countP_nil,
          f1, f2, f3, f4, f5, g1, g2, g3, g4, g5, hhct]
        simp

set_option maxRecDepth 8000 in
/-- Witness for C4 amended: a concrete build (POST with data "x", no
caller headers) has exactly one Content-Length and one Content-Type line,
as the amended theorem instantiates. -/
theorem claim_C4_amended_witness :
    countHdr (exceptBytes (buildRequest (fun _ => none)
        { method := strB "POST", host := strB "h", data := strB "x" } []))
        (strB "Content-Length") = 1
    ∧ countHdr (exceptBytes (buildRequest (fun _ => none)
        { method := strB "POST", host := strB "h", data := strB "x" } []))
        (strB "Content-Type") = 1 := by
  have h := claim_C4_amended (fun _ => none)
    { method := strB "POST", host := strB "h", data := strB "x" } []
    (exceptBytes (buildRequest (fun _ => none)
        { method := strB "POST", host := strB "h", data := strB "x" } []))
    rfl (Or.inr (by decide)) (by decide) (by decide) (by decide)
    (by decide) (by decide) (by decide)
  simpa [hasHeader] using h
